import Mathlib

/-!
# Verification of the dashspace-cli build pipeline (package `build`)

This file gives a shallow embedding of the descriptor extractor, the
capability/webhook validators, the pipeline orchestrator and the bundle
packager of the dashspace-cli repository, and proves or refutes the frozen
claims about them.

Modelling conventions:

* Pure Go functions become Lean functions with the same names where possible.
* The extractor passes work by running fixed regular expressions over source
  text.  For the claims that are about the *selection and defaulting logic*
  (not about the text scanning itself) we model a source block as the record
  of the query results those regexes produce: a field is `some v` exactly when
  the corresponding pattern matches with capture `v`, and `none` when it does
  not match.  Each record field is annotated with the regex it stands for.
* For the claim about the configuration-step scanner (which *is* about the
  text scanning) the scanner is embedded faithfully over `List Char`.
* Fallible Go code returns `Except String α`; Go `panic` (from an unchecked
  type assertion) is a distinguished outcome of an `Outcome` type.
* `fmt.Printf("⚠️ ...")` warnings are accumulated in `List String` results.
* File-system reads are modelled by `Option`-valued inputs (`none` = the file
  is absent), and writes are not modelled.
-/

/-- Go `%v` formatting of a `[]string`: `[a b c]`. -/
def goFmtStrSlice (xs : List String) : String :=
  "[" ++ String.intercalate " " xs ++ "]"

/-- `true` iff `pat` is a prefix of some suffix of `s`. -/
def listContainsSub (s pat : List Char) : Bool :=
  if pat.isPrefixOf s then true
  else
    match s with
    | [] => false
    | _ :: t => listContainsSub t pat

/-- `true` iff `pat` occurs as a contiguous substring of `s`
(Go `strings.Contains`). -/
def strContains (s pat : String) : Bool :=
  listContainsSub s.toList pat.toList

/-- The `DashspaceConfig` struct of the build package. -/
structure DashspaceConfig where
  ID : Nat
  Slug : String
  Name : String
  Version : String
  Description : String
  Author : String
  Entry : String
  Icon : String
  Category : String
  Tags : List String
  Permissions : List String
  RequiresSetup : Bool
  Providers : List (List (String × String))
  ImplementedInterfaces : List String
  Checksum : String
  Timestamp : String
deriving Repr, DecidableEq

/-- The Go zero value of `DashspaceConfig`. -/
def DashspaceConfig.zero : DashspaceConfig :=
  { ID := 0, Slug := "", Name := "", Version := "", Description := "",
    Author := "", Entry := "", Icon := "", Category := "", Tags := [],
    Permissions := [], RequiresSetup := false, Providers := [],
    ImplementedInterfaces := [], Checksum := "", Timestamp := "" }

/-- Result of the regex queries `Parser.parseMetadataFields` performs on the
identity options block of `DashspaceModuleFactory`.  Each field is `some v`
exactly when the corresponding pattern matches the block with capture `v`:

* `id`          — first match of `id:\s*(\d+)` (so a value is a decimal `Nat`);
* `slug`        — first match of `slug:\s*['"]([^'"]+)['"]`;
* `name`        — first match of `name:\s*['"]([^'"]+)['"]`;
* `version`     — first match of `version:\s*['"]([^'"]+)['"]`;
* `description` — first match of `description:\s*['"]([^'"]+)['"]`;
* `author`      — first match of `author:\s*['"]([^'"]+)['"]`;
* `icon`        — first match of `icon:\s*['"]([^'"]+)['"]`;
* `category`    — first match of `category:\s*['"]([^'"]+)['"]`;
* `tags`        — quoted strings inside the first match of `tags:\s*\[(.*?)\]`.

Captures of `([^'"]+)` are nonempty strings; this is carried as a hypothesis
where a claim needs it. -/
structure MetadataFields where
  id : Option Nat
  slug : Option String
  name : Option String
  version : Option String
  description : Option String
  author : Option String
  icon : Option String
  category : Option String
  tags : Option (List String)
deriving Repr, DecidableEq

/-- `Parser.parseMetadataFields`: writes each matched field into the config. -/
def parseMetadataFields (m : MetadataFields) (config : DashspaceConfig) :
    DashspaceConfig :=
  let config := match m.id with
    | some v => { config with ID := v }
    | none => config
  let config := match m.slug with
    | some v => { config with Slug := v }
    | none => config
  let config := match m.name with
    | some v => { config with Name := v }
    | none => config
  let config := match m.version with
    | some v => { config with Version := v }
    | none => config
  let config := match m.description with
    | some v => { config with Description := v }
    | none => config
  let config := match m.author with
    | some v => { config with Author := v }
    | none => config
  let config := match m.icon with
    | some v => { config with Icon := v }
    | none => config
  let config := match m.category with
    | some v => { config with Category := v }
    | none => config
  let config := match m.tags with
    | some v => { config with Tags := v }
    | none => config
  config

/-- Go `strings.ReplaceAll` for a single-character pattern: every occurrence
of `c` is replaced by `rep` (`rep = []` deletes it). -/
def replaceChar (s : List Char) (c : Char) (rep : List Char) : List Char :=
  s.flatMap (fun x => if x = c then rep else [x])

/-- `sanitizeSlug`: lowercase (Go `strings.ToLower`, modelled at the ASCII
level by `Char.toLower`), then replace every space by `-`, delete every `@`,
and replace every `/` and `_` by `-`, in that order. -/
def sanitizeSlug (name : String) : String :=
  let slug := name.toList.map Char.toLower
  let slug := replaceChar slug ' ' ['-']
  let slug := replaceChar slug '@' []
  let slug := replaceChar slug '/' ['-']
  let slug := replaceChar slug '_' ['-']
  String.mk slug

/-- `Parser.ExtractMetadata`.  The argument is the identity options block of
the factory function: `none` models the case where the
`DashspaceModuleFactory` / options-object regexes do not match (in which case
`parseMetadataFields` is never called and the config keeps its zero values). -/
def ExtractMetadata (block : Option MetadataFields) :
    Except String DashspaceConfig :=
  let config := { DashspaceConfig.zero with Entry := "bundle.js" }
  let config := match block with
    | some m => parseMetadataFields m config
    | none => config
  if config.ID = 0 then
    .error "module ID not found in DashspaceModuleFactory"
  else if config.Name = "" then
    .error "module name not found in DashspaceModuleFactory"
  else
    let config := if config.Version = "" then
        { config with Version := "1.0.0" } else config
    let config := if config.Slug = "" then
        { config with Slug := sanitizeSlug config.Name } else config
    .ok config

/-- `Validator.ValidateMetadata`. -/
def ValidateMetadata (config : DashspaceConfig) : Except String Unit :=
  if config.ID = 0 then .error "module ID is required"
  else if config.Name = "" then .error "module name is required"
  else if config.Version = "" then .error "module version is required"
  else if config.Slug = "" then .error "module slug is required"
  else .ok ()

/-- Go `strings.ToLower`, modelled at the ASCII level. -/
def asciiToLower (s : String) : String :=
  String.mk (s.toList.map Char.toLower)

/-- Go `strings.HasPrefix`. -/
def strStartsWith (s pat : String) : Bool :=
  pat.toList.isPrefixOf s.toList

/-! ## Configuration-step maps

`StepExtractor` builds `map[string]interface{}` values.  Insertion order of
the Go code is kept so that the maps are concrete data. -/

/-- Values inside a `validation` map: flags, patterns, numeric bounds, and the
`options` list of `{value, label}` pairs for select fields. -/
inductive VVal where
  | str (s : String)
  | num (n : Nat)
  | bool (b : Bool)
  | opts (l : List (String × String))
deriving Repr, DecidableEq

abbrev ValidationMap := List (String × VVal)

/-- Values inside a field map. -/
inductive FVal where
  | str (s : String)
  | num (n : Nat)
  | bool (b : Bool)
  | validation (v : ValidationMap)
deriving Repr, DecidableEq

abbrev FieldMap := List (String × FVal)

/-- Values inside a step map. -/
inductive StVal where
  | str (s : String)
  | num (n : Nat)
  | bool (b : Bool)
  | fieldArr (fs : List FieldMap)
deriving Repr, DecidableEq

abbrev StepMap := List (String × StVal)

/-- Number of entries of the `fields` sub-array of a step map (0 when the
`fields` key is absent). -/
def stepFieldCount (step : StepMap) : Nat :=
  match (step.find? (fun p => p.1 = "fields")).map (·.2) with
  | some (StVal.fieldArr fs) => fs.length
  | _ => 0

/-! ## Interface validator (`interfaces.go`) -/

/-- The fixed per-interface required-method table of
`InterfaceValidator.validateInterfaceMethods`. -/
def requiredMethodsTable (interfaceName : String) : Option (List String) :=
  if interfaceName = "ISearchable" then
    some ["search", "getSearchResults", "getSearchFilters",
          "translateUQLQuery", "getUQLCapabilities"]
  else if interfaceName = "IRefreshable" then
    some ["refresh", "getLastRefresh", "setAutoRefresh"]
  else if interfaceName = "IExportable" then
    some ["export", "getSupportedFormats", "exportData"]
  else if interfaceName = "IFilterable" then
    some ["applyFilter", "clearFilters", "getCurrentFilter",
          "translateUQLQuery", "getUQLCapabilities"]
  else if interfaceName = "IThemeable" then
    some ["applyTheme", "getThemeConfig", "getSupportedThemes"]
  else if interfaceName = "INotifiable" then
    some ["sendNotification", "subscribe", "unsubscribe"]
  else if interfaceName = "IDataProvider" then
    some ["getData", "getDataSchema", "subscribe"]
  else if interfaceName = "ISchedulable" then
    some ["schedule", "unschedule", "getSchedule"]
  else none

/-- One sub-key of the `handlers` object literal in `Component.tsx`:
`name` is the key matched by `(?m)^\s*["']?(\w+)["']?\s*:\s*\{`, and
`methods` are the method names `m` for which the presence pattern
`\bm\s*[:=]\s*(?:async\s+)?(?:\([^)]*\)\s*=>|\w)` matches inside the
sub-key's block. -/
structure HandlerEntry where
  name : String
  methods : List String
deriving Repr, DecidableEq

/-- Queries the interface validator performs on `Component.tsx`:
`usesModuleInterfaces` is `strings.Contains(content, "useModuleInterfaces")`;
`handlersBlock` is the handlers object literal (`none` when neither the
`satisfies InterfaceHandlers` variant nor the bare-assignment variant of the
`handlers` regex matches). -/
structure ComponentSource where
  usesModuleInterfaces : Bool
  handlersBlock : Option (List HandlerEntry)
  containsUseWebhook : Bool
  webhookHookCallPresent : Bool
  referencedEvents : List String
deriving Repr, DecidableEq

/-- `extractImplementedInterfaces`: sub-keys whose name starts with `I`. -/
def extractImplementedInterfaces (handlers : List HandlerEntry) : List String :=
  (handlers.filter (fun e => strStartsWith e.name "I")).map (·.name)

/-- The list of required methods missing from a handlers sub-block
(the `missingMethods` loop of `validateInterfaceMethods`). -/
def missingMethodsOf (blockMethods required : List String) : List String :=
  required.filter (fun m => !(blockMethods.contains m))

/-- `InterfaceValidator.validateInterfaceMethods`.  Finding the interface
block inside the handlers content is modelled by looking up the first
sub-key with the given name.  Returns (printed warnings, result). -/
def validateInterfaceMethods (handlers : List HandlerEntry)
    (interfaceName : String) : List String × Except String Unit :=
  match requiredMethodsTable interfaceName with
  | none =>
    (["Warning: Unknown interface " ++ interfaceName ++
        ", skipping method validation"], .ok ())
  | some methods =>
    match handlers.find? (fun e => e.name = interfaceName) with
    | none =>
      ([], .error ("could not find interface block for " ++ interfaceName))
    | some entry =>
      let missingMethods := missingMethodsOf entry.methods methods
      if missingMethods.isEmpty then ([], .ok ())
      else ([], .error ("missing methods: " ++ goFmtStrSlice missingMethods))

/-- The declared/implemented matching rule of `ValidateImplementation`:
equal, or differing only by the `I` interface-marker prefix. -/
def interfaceMatches (declared implemented : String) : Bool :=
  declared = implemented || "I" ++ declared = implemented ||
    declared = "I" ++ implemented

/-- The per-implemented-interface method-check loop of
`ValidateImplementation`: runs `validateInterfaceMethods` on each implemented
sub-key in order and stops at the first failure, wrapping it as
`interface <name> validation failed: <err>`. -/
def runMethodChecks (handlers : List HandlerEntry) :
    List String → List String × Except String Unit
  | [] => ([], .ok ())
  | n :: rest =>
    let wr := validateInterfaceMethods handlers n
    match wr.2 with
    | .error e =>
      (wr.1, .error ("interface " ++ n ++ " validation failed: " ++ e))
    | .ok _ =>
      let wr2 := runMethodChecks handlers rest
      (wr.1 ++ wr2.1, wr2.2)

/-- `InterfaceValidator.ValidateImplementation`.  `component = none` models a
missing `Component.tsx`.  Returns (printed warnings, result). -/
def ValidateImplementation (declaredInterfaces : List String)
    (component : Option ComponentSource) : List String × Except String Unit :=
  match component with
  | none => ([], .error "Component.tsx not found")
  | some comp =>
    if !comp.usesModuleInterfaces then
      ([], .error "Component does not use useModuleInterfaces hook")
    else
      match comp.handlersBlock with
      | none => ([], .error "handlers object not found in Component")
      | some handlers =>
        let implementedInterfaces := extractImplementedInterfaces handlers
        match declaredInterfaces.find?
            (fun d => !(implementedInterfaces.any
              (fun i => interfaceMatches d i))) with
        | some d =>
          ([], .error ("interface " ++ d ++
            " declared in Module.ts but not implemented in Component.tsx"))
        | none => runMethodChecks handlers implementedInterfaces

/-! ## Webhook maps and validators (`webhook.go`, `Parser.ExtractWebhooks`) -/

/-- Values of the `map[string]interface{}` holding a webhook configuration.
`nullv` models a Go `nil` interface value. -/
inductive WVal where
  | str (s : String)
  | strList (l : List String)
  | nullv
deriving Repr, DecidableEq

abbrev WebhooksMap := List (String × WVal)

def wlookup (m : WebhooksMap) (k : String) : Option WVal :=
  (m.find? (fun p => p.1 = k)).map (·.2)

/-- Checked type assertion `v, ok := m[k].(string)`. -/
def getString? (m : WebhooksMap) (k : String) : Option String :=
  match wlookup m k with
  | some (.str s) => some s
  | _ => none

/-- Checked type assertion `v, ok := m[k].([]string)`.  The *unchecked*
assertion `m[k].([]string)` panics exactly when this returns `none`. -/
def getStrList? (m : WebhooksMap) (k : String) : Option (List String) :=
  match wlookup m k with
  | some (.strList l) => some l
  | _ => none

/-- Outcome of running a Go function that can panic. -/
inductive Outcome (α : Type) where
  | panicked
  | failed (msg : String)
  | ok (val : α)
deriving Repr, DecidableEq

/-- The provider token of a webhooks block: the alternation
`provider:\s*(?:Provider\.(\w+)|['"]([^'"]+)['"])`. -/
inductive ProviderForm where
  | enum (name : String)
  | lit (s : String)
deriving Repr, DecidableEq

/-- Regex query results of `Parser.ExtractWebhooks` on the `webhooks:` block
of the module metadata: `provider` is the first match of the provider
alternation; `events` / `configFields` hold the quoted strings inside the
first match of `events:\s*\[(.*?)\]` / `configFields:\s*\[(.*?)\]`. -/
structure WebhookBlock where
  provider : Option ProviderForm
  events : Option (List String)
  configFields : Option (List String)
deriving Repr, DecidableEq

/-- The provider value `ExtractWebhooks` stores: enum tokens are lowercased,
string literals are kept as written. -/
def webhookProviderValue : ProviderForm → String
  | .enum n => asciiToLower n
  | .lit s => s

/-- `Parser.ExtractWebhooks`.  `block = none` models the case where the
module-constructor metadata regex or the `webhooks:` block regex does not
match; the result is `none` also when the built map stays empty. -/
def ExtractWebhooks (block : Option WebhookBlock) : Option WebhooksMap :=
  match block with
  | none => none
  | some b =>
    let m : WebhooksMap := []
    let m := match b.provider with
      | some p =>
        let v := webhookProviderValue p
        if v ≠ "" then m ++ [("provider", .str v)] else m
      | none => m
    let m := match b.events with
      | some evs => if !evs.isEmpty then m ++ [("events", .strList evs)] else m
      | none => m
    let m := match b.configFields with
      | some cfs =>
        if !cfs.isEmpty then m ++ [("configFields", .strList cfs)] else m
      | none => m
    if m.isEmpty then none else some m

/-- The queries `WebhookValidator` performs on `Module.ts`:

* `extendsBaseModule` — `strings.Contains(content, "extends BaseModule")`;
* `registerCalls` — captures of `this\.registerWebhookHandler\(['"]([^'"]+)['"]`
  in source order;
* `hasHandlerEventMethod` — the generic handler-method pattern
  `(?:private|protected|async)\s+(?:async\s+)?handle\w+Event\s*\([^)]*WebhookEvent[^)]*\)`;
* `containsWebhookEvent` — `strings.Contains(content, "WebhookEvent")`;
* `handlerMethodFor` — the stems `M` for which
  `handle<M>Event\s*\([^)]*(?:event|webhook)[^)]*:\s*WebhookEvent` matches;
* the last three fields feed `ValidateWebhookSecurity`. -/
structure ModuleImplSource where
  extendsBaseModule : Bool
  registerCalls : List String
  hasHandlerEventMethod : Bool
  containsWebhookEvent : Bool
  handlerMethodFor : List String
  handlerLacksTryCatch : Bool
  containsEventData : Bool
  containsThisEmit : Bool
deriving Repr, DecidableEq

/-- `WebhookValidator.eventToMethodName`: split on `_`, capitalize each part
(`pull_request` becomes `PullRequest`). -/
def splitOnChar (s : List Char) (c : Char) : List (List Char) :=
  match s with
  | [] => [[]]
  | x :: rest =>
    let r := splitOnChar rest c
    if x = c then [] :: r
    else
      match r with
      | [] => [[x]]
      | h :: t => (x :: h) :: t

def eventToMethodName (event : String) : String :=
  String.mk ((splitOnChar event.toList '_').flatMap
    (fun p =>
      match p with
      | [] => []
      | c :: rest => c.toUpper :: rest))

def isValidProviderName (provider : String) : Bool :=
  ["github", "gitlab", "google", "slack", "stripe", "twilio", "discord",
   "linear", "notion", "airtable"].contains (asciiToLower provider)

/-- `^[a-z][a-z0-9_]*$`. -/
def isValidEventFormat (event : String) : Bool :=
  match event.toList with
  | [] => false
  | c :: rest =>
    (97 ≤ c.toNat && c.toNat ≤ 122) &&
      rest.all (fun x =>
        (97 ≤ x.toNat && x.toNat ≤ 122) ||
        (48 ≤ x.toNat && x.toNat ≤ 57) || x = '_')

/-- The per-event loop of `ValidateWebhookConfiguration`: an empty event is a
fatal error, a badly formatted one only warns. -/
def checkEventsLoop : List String → List String × Except String Unit
  | [] => ([], .ok ())
  | e :: rest =>
    if e = "" then ([], .error "empty event found in webhooks.events")
    else
      let w := if !isValidEventFormat e then
          ["Warning: event \x27" ++ e ++
            "\x27 should use lowercase with underscores (e.g., \x27pull_request\x27, \x27issues\x27)"]
        else []
      let wr := checkEventsLoop rest
      (w ++ wr.1, wr.2)

/-- `WebhookValidator.ValidateWebhookConfiguration`.
Returns (printed warnings, result); on a fatal error the warnings printed up
to that point are kept. -/
def ValidateWebhookConfiguration (webhooks : Option WebhooksMap) :
    List String × Except String Unit :=
  match webhooks with
  | none => ([], .ok ())
  | some m =>
    if m.isEmpty then ([], .ok ())
    else
      match getString? m "provider" with
      | none => ([], .error "webhook provider is required in metadata.webhooks")
      | some provider =>
        if provider = "" then
          ([], .error "webhook provider is required in metadata.webhooks")
        else if !(strStartsWith provider "Provider.") &&
            !(isValidProviderName provider) then
          ([], .error ("webhook provider should use Provider enum (e.g., Provider.GITHUB) or valid provider name, got: "
            ++ provider))
        else
          match getStrList? m "events" with
          | none =>
            ([], .error "webhook events array is required and cannot be empty")
          | some events =>
            if events.isEmpty then
              ([], .error "webhook events array is required and cannot be empty")
            else
              let evr := checkEventsLoop events
              match evr.2 with
              | .error e => (evr.1, .error e)
              | .ok _ =>
                let configFields? :=
                  match getStrList? m "configFields" with
                  | some cfs => some cfs
                  | none => getStrList? m "config_fields"
                let cfw :=
                  match configFields? with
                  | some cfs =>
                    if !cfs.isEmpty then
                      if cfs.contains "" then
                        none  -- fatal below
                      else some []
                    else some ["Warning: No configFields specified. Webhooks may need configuration fields like [\x27owner\x27, \x27repo\x27]"]
                  | none => some ["Warning: No configFields specified. Webhooks may need configuration fields like [\x27owner\x27, \x27repo\x27]"]
                match cfw with
                | none =>
                  (evr.1, .error "empty config field found in webhooks.configFields")
                | some w2 =>
                  let w3 :=
                    if wlookup m "handler" = some .nullv then
                      ["Warning: webhook handler is null in metadata"]
                    else []
                  (evr.1 ++ w2 ++ w3, .ok ())

/-- Warnings for declared events with no registered handler
(`Event '<e>' declared in metadata but no handler registered`). -/
def missingRegWarnings (events registered : List String) : List String :=
  (events.filter (fun e => !(registered.contains e))).map
    (fun e => "Warning: Event \x27" ++ e ++
      "\x27 declared in metadata but no handler registered in initialize()")

/-- Tail of `ValidateWebhookImplementation` after the handler-registration
scan: generic handler-method warning, the fatal `WebhookEvent` reference
check, the second *unchecked* `webhooks["events"].([]string)` assertion, and
the per-event handler-naming warnings. -/
def vwiTail (m : WebhooksMap) (src : ModuleImplSource) (w1 : List String) :
    Outcome (List String) :=
  let w2 := if !src.hasHandlerEventMethod then
      ["Warning: No webhook event handler methods found (e.g., handleIssuesEvent)"]
    else []
  if !src.containsWebhookEvent then
    .failed "WebhookEvent type not imported from dashspace-lib"
  else
    match getStrList? m "events" with
    | none => .panicked
    | some events =>
      let w3 := (events.filter
          (fun e => !(src.handlerMethodFor.contains (eventToMethodName e)))).map
        (fun e => "Warning: Expected handler method \x27handle" ++
          eventToMethodName e ++ "Event(event: WebhookEvent)\x27 not found")
      .ok (w1 ++ w2 ++ w3)

/-- `WebhookValidator.ValidateWebhookImplementation`.  On success the value
is the list of printed warnings (warnings printed before a fatal error or a
panic are dropped from the model). -/
def ValidateWebhookImplementation (webhooks : Option WebhooksMap)
    (impl : Option ModuleImplSource) : Outcome (List String) :=
  match webhooks with
  | none => .ok []
  | some m =>
    if m.isEmpty then .ok []
    else
      match impl with
      | none => .failed "Module.ts not found"
      | some src =>
        if !src.extendsBaseModule then
          .failed "Module must extend BaseModule to use webhooks"
        else if src.registerCalls.isEmpty then
          vwiTail m src
            ["Warning: No registerWebhookHandler calls found in initialize(). Webhooks may not be handled."]
        else
          match getStrList? m "events" with
          | none => .panicked
          | some events =>
            vwiTail m src (missingRegWarnings events src.registerCalls)

/-- `WebhookValidator.ValidateComponentWebhookUsage`: best-effort warnings,
but with the same unchecked `webhooks["events"].([]string)` assertion. -/
def ValidateComponentWebhookUsage (webhooks : Option WebhooksMap)
    (component : Option ComponentSource) : Outcome (List String) :=
  match webhooks with
  | none => .ok []
  | some m =>
    if m.isEmpty then .ok []
    else
      match component with
      | none =>
        .ok ["Warning: Component.tsx not found, skipping component webhook validation"]
      | some comp =>
        if !comp.containsUseWebhook then
          .ok ["Warning: No webhook hooks (useWebhookEvents/useWebhook) imported in Component"]
        else
          let w1 := if !comp.webhookHookCallPresent then
              ["Warning: Webhook hooks imported but not used in Component"]
            else []
          match getStrList? m "events" with
          | none => .panicked
          | some events =>
            let w2 := (events.filter
                (fun e => !(comp.referencedEvents.contains e))).map
              (fun e => "Warning: Event \x27" ++ e ++
                "\x27 not explicitly handled in Component")
            .ok (w1 ++ w2)

/-- `WebhookValidator.ValidateWebhookSecurity`: never fails. -/
def ValidateWebhookSecurity (impl : Option ModuleImplSource) : List String :=
  match impl with
  | none => []
  | some src =>
    let w1 := if src.handlerLacksTryCatch then
        ["Webhook handlers should use try/catch for error handling"] else []
    let w2 := if !src.containsEventData then
        ["Webhook handlers should validate event.data before processing"]
      else []
    let w3 := if !src.containsThisEmit then
        ["Consider using this.emit() to notify Component of webhook events"]
      else []
    w1 ++ w2 ++ w3

/-! ## Provider extractor (`ProviderExtractor.ExtractProviders`) -/

/-- Values of a provider `map[string]interface{}`. -/
inductive PVal where
  | str (s : String)
  | bool (b : Bool)
  | strList (l : List String)
deriving Repr, DecidableEq

abbrev ProviderMap := List (String × PVal)

/-- Regex query results of `ExtractProviders` on one object literal of the
providers array (an `objectRegex` match):

* `providerEnum` — capture of `provider:\s*Provider\.(\w+)` (the only form
  the extractor queries for the provider name);
* `providerLit` — a `provider: "name"` string literal present in the object's
  text; recorded here to state claims, but *never* queried by the extractor;
* `requiredTrue` / `requiredFalse` — whether `required:\s*true` /
  `required:\s*false` matches;
* `scopes` — quoted strings inside the first `scopes:\s*\[(.*?)\]`;
* `description` — capture of `description:\s*['"]([^'"]+)['"]`. -/
structure ProviderObj where
  providerEnum : Option String
  providerLit : Option String
  requiredTrue : Bool
  requiredFalse : Bool
  scopes : Option (List String)
  description : Option String
deriving Repr, DecidableEq

/-- The provider map built for an object whose enum form matched. -/
def mkProviderEntry (o : ProviderObj) (enumName : String) : ProviderMap :=
  let p : ProviderMap := [("name", .str (asciiToLower enumName))]
  let p := if o.requiredTrue then p ++ [("required", .bool true)]
    else if o.requiredFalse then p ++ [("required", .bool false)]
    else p ++ [("required", .bool true)]
  let p := match o.scopes with
    | some scopes =>
      if !scopes.isEmpty then p ++ [("scopes", .strList scopes)] else p
    | none => p
  let p := match o.description with
    | some d => p ++ [("description", .str d)]
    | none => p
  p

/-- `ProviderExtractor.ExtractProviders`: one map per object literal whose
provider has the enum form; all other objects are skipped (`continue`)
without a warning or an error. -/
def ExtractProviders (objs : List ProviderObj) : List ProviderMap :=
  objs.filterMap (fun o => o.providerEnum.map (mkProviderEntry o))

/-! ## Data schema (`DataSchemaExtractor`) and permissions (`validator.go`) -/

/-- The Go struct `DataFieldDefinition`; its `Type` field is called `Typ`
here because `Type` is reserved in Lean. -/
structure DataFieldDefinition where
  Name : String
  Typ : String
  Description : String
  Nullable : Bool
  Example : String
deriving Repr, DecidableEq

structure DataCapability where
  Name : String
  Fields : List String
deriving Repr, DecidableEq

structure DataSchemaDefinition where
  Fields : List DataFieldDefinition
  Capabilities : List DataCapability
deriving Repr, DecidableEq

structure ModuleDataSchema where
  ExposeData : Bool
  DataType : String
  Schema : Option DataSchemaDefinition
  ComputedFields : List String
deriving Repr, DecidableEq

def validDataTypes : List String :=
  ["issue-tracker", "payment-system", "error-tracking", "deployment-system",
   "task-management", "communication", "analytics", "generic"]

/-- The fixed enum of schema field types. -/
def validFieldTypes : List String :=
  ["string", "number", "date", "boolean", "array", "object"]

def validSchemaCapabilities : List String :=
  ["filterable", "sortable", "groupable", "aggregatable", "time-series"]

/-- `DataSchemaExtractor.ValidateDataSchema`.
Returns (printed warnings, result); warnings printed before a fatal error are
kept. -/
def ValidateDataSchema (schema : ModuleDataSchema) :
    List String × Except String Unit :=
  if !schema.ExposeData then ([], .ok ())
  else
    let w1 := if schema.DataType = "" then
        ["Warning: No data type specified (using \x27generic\x27)"] else []
    if schema.DataType ≠ "" && !(validDataTypes.contains schema.DataType) then
      (w1, .error ("invalid data type: " ++ schema.DataType))
    else
      match schema.Schema with
      | none => (w1, .ok ())
      | some s =>
        let w2 := if s.Fields.isEmpty then
            ["Warning: Schema defined but no fields found"] else []
        match s.Fields.find? (fun f => !(validFieldTypes.contains f.Typ)) with
        | some f =>
          (w1 ++ w2, .error ("invalid field type \x27" ++ f.Typ ++
            "\x27 for field \x27" ++ f.Name ++ "\x27"))
        | none =>
          let w3 := (s.Capabilities.filter
              (fun c => !(validSchemaCapabilities.contains c.Name))).map
            (fun c => "Warning: Unknown capability \x27" ++ c.Name ++ "\x27")
          (w1 ++ w2 ++ w3, .ok ())

/-- The fixed permission whitelist of `Validator.ValidatePermissions`. -/
def validPermissions : List String :=
  ["storage:read", "storage:write", "ui:notifications", "ui:modals",
   "network:external"]

/-- `Validator.ValidatePermissions`: unknown permissions only produce printed
warnings; the function always returns `nil`. -/
def ValidatePermissions (permissions : List String) :
    List String × Except String Unit :=
  ((permissions.filter (fun p => !(validPermissions.contains p))).map
      (fun p => "Warning: Unknown permission \x27" ++ p ++ "\x27"),
   .ok ())

/-! ## Manifest (`BuildManifest`) -/

/-- Values of the manifest `map[string]interface{}`. -/
inductive MVal where
  | int (n : Nat)
  | str (s : String)
  | bool (b : Bool)
  | strList (l : List String)
  | steps (l : List StepMap)
  | providerList (l : List ProviderMap)
  | webhooks (w : WebhooksMap)
  | schema (s : ModuleDataSchema)
  | buildInfo (cliVersion buildDate : String) (validated : Bool)
deriving Repr, DecidableEq

abbrev Manifest := List (String × MVal)

def mlookup (m : Manifest) (k : String) : Option MVal :=
  (m.find? (fun p => p.1 = k)).map (·.2)

/-- `BuildManifest`.  `timestamp` models the injected `time.Now()` value.
Keys are listed in the insertion order of the Go code; Go map iteration order
is irrelevant to the claims, which are about key membership. -/
def BuildManifest (config : DashspaceConfig) (configSteps : List StepMap)
    (providers : List ProviderMap) (interfaces : List String)
    (permissions : List String) (webhooks : Option WebhooksMap)
    (dataSchema : Option ModuleDataSchema) (checksum : String)
    (timestamp : String) : Manifest :=
  let config := { config with Checksum := checksum, Timestamp := timestamp }
  let manifest : Manifest :=
    [("id", .int config.ID),
     ("slug", .str config.Slug),
     ("name", .str config.Name),
     ("version", .str config.Version),
     ("description", .str config.Description),
     ("author", .str config.Author),
     ("entry", .str config.Entry),
     ("checksum", .str config.Checksum),
     ("timestamp", .str config.Timestamp),
     ("requires_setup", .bool config.RequiresSetup),
     ("build_info", .buildInfo "1.0.11" config.Timestamp true)]
  let manifest := if config.Icon ≠ "" then
      manifest ++ [("icon", .str config.Icon)] else manifest
  let manifest := if config.Category ≠ "" then
      manifest ++ [("category", .str config.Category)] else manifest
  let manifest := if !config.Tags.isEmpty then
      manifest ++ [("tags", .strList config.Tags)] else manifest
  let manifest := if config.RequiresSetup && !configSteps.isEmpty then
      manifest ++ [("configuration_steps", .steps configSteps)] else manifest
  let manifest := if !providers.isEmpty then
      manifest ++ [("providers", .providerList providers)] else manifest
  let manifest := if !interfaces.isEmpty then
      manifest ++ [("interfaces", .strList interfaces)] else manifest
  let manifest := if !permissions.isEmpty then
      manifest ++ [("permissions", .strList permissions)] else manifest
  let manifest := match webhooks with
    | some w => if !w.isEmpty then manifest ++ [("webhooks", .webhooks w)]
        else manifest
    | none => manifest
  let manifest := match dataSchema with
    | some ds => if ds.ExposeData then
        manifest ++ [("data_schema", .schema ds)] else manifest
    | none => manifest
  manifest

/-- The `RequiresSetup` computation of `buildModule` (build.go:220-230):
`true` iff at least one configuration step was extracted. -/
def computeRequiresSetup (configSteps : List StepMap) : Bool :=
  !configSteps.isEmpty

/-! ## Bundle packager (`generator.go`)

SHA-256 is implemented in full over byte lists so that the checksum returned
by `Generate` is the real content hash. -/

/-- 32-bit truncation. -/
def w32 (x : Nat) : Nat := x % 4294967296

/-- 32-bit right rotation. -/
def rotr32 (n x : Nat) : Nat :=
  w32 (x / 2 ^ n + x % 2 ^ n * 2 ^ (32 - n))

def sha256K : List Nat :=
  [1116352408, 1899447441, 3049323471, 3921009573, 961987163, 1508970993,
   2453635748, 2870763221, 3624381080, 310598401, 607225278, 1426881987,
   1925078388, 2162078206, 2614888103, 3248222580, 3835390401, 4022224774,
   264347078, 604807628, 770255983, 1249150122, 1555081692, 1996064986,
   2554220882, 2821834349, 2952996808, 3210313671, 3336571891, 3584528711,
   113926993, 338241895, 666307205, 773529912, 1294757372, 1396182291,
   1695183700, 1986661051, 2177026350, 2456956037, 2730485921, 2820302411,
   3259730800, 3345764771, 3516065817, 3600352804, 4094571909, 275423344,
   430227734, 506948616, 659060556, 883997877, 958139571, 1322822218,
   1537002063, 1747873779, 1955562222, 2024104815, 2227730452, 2361852424,
   2428436474, 2756734187, 3204031479, 3329325298]

def sha256H0 : List Nat :=
  [1779033703, 3144134277, 1013904242, 2773480762, 1359893119, 2600822924,
   528734635, 1541459225]

/-- SHA-256 padding of a byte message. -/
def sha256Pad (msg : List Nat) : List Nat :=
  let len := msg.length
  let zeros := (55 - len % 64 + 64) % 64
  let bitLen := len * 8
  msg ++ [0x80] ++ List.replicate zeros 0 ++
    [bitLen / 2 ^ 56 % 256, bitLen / 2 ^ 48 % 256, bitLen / 2 ^ 40 % 256,
     bitLen / 2 ^ 32 % 256, bitLen / 2 ^ 24 % 256, bitLen / 2 ^ 16 % 256,
     bitLen / 2 ^ 8 % 256, bitLen % 256]

/-- Split a list into chunks of `n` elements (`n > 0`). -/
def chunksOf (n : Nat) : List α → List (List α)
  | [] => []
  | x :: xs =>
    let rest := chunksOf n xs
    match rest with
    | [] => [[x]]
    | h :: t => if h.length < n then (x :: h) :: t else [x] :: h :: t

/-- Big-endian 32-bit words of a 64-byte block. -/
def blockWords (block : List Nat) : List Nat :=
  (chunksOf 4 block).map (fun c =>
    match c with
    | [a, b, d, e] => a * 2 ^ 24 + b * 2 ^ 16 + d * 2 ^ 8 + e
    | _ => 0)

/-- The 64-entry SHA-256 message schedule, extending the 16 block words. -/
def sha256Schedule (ws : List Nat) : Nat → List Nat
  | 0 => ws
  | n + 1 =>
    let ws := sha256Schedule ws n
    let i := 16 + n
    let g := fun (j : Nat) => ws.getD j 0
    let s0 := (rotr32 7 (g (i - 15))).xor
      ((rotr32 18 (g (i - 15))).xor (g (i - 15) / 2 ^ 3))
    let s1 := (rotr32 17 (g (i - 2))).xor
      ((rotr32 19 (g (i - 2))).xor (g (i - 2) / 2 ^ 10))
    ws ++ [w32 (g (i - 16) + s0 + g (i - 7) + s1)]

/-- One round of the SHA-256 compression function. -/
def sha256Round (st : List Nat) (kw : Nat × Nat) : List Nat :=
  match st with
  | [a, b, c, d, e, f, g, h] =>
    let s1 := (rotr32 6 e).xor ((rotr32 11 e).xor (rotr32 25 e))
    let ch := (e.land f).xor ((4294967295 - w32 e).land g)
    let t1 := w32 (h + s1 + ch + kw.1 + kw.2)
    let s0 := (rotr32 2 a).xor ((rotr32 13 a).xor (rotr32 22 a))
    let mj := (a.land b).xor ((a.land c).xor (b.land c))
    let t2 := w32 (s0 + mj)
    [w32 (t1 + t2), a, b, c, w32 (d + t1), e, f, g]
  | _ => st

/-- Process one 64-byte block. -/
def sha256Block (h : List Nat) (block : List Nat) : List Nat :=
  let ws := sha256Schedule (blockWords block) 48
  let st := (sha256K.zip ws).foldl sha256Round h
  (h.zip st).map (fun p => w32 (p.1 + p.2))

/-- SHA-256 digest (32 bytes) of a byte message. -/
def sha256Bytes (msg : List Nat) : List Nat :=
  let final := (chunksOf 64 (sha256Pad msg)).foldl sha256Block sha256H0
  final.flatMap (fun x =>
    [x / 2 ^ 24 % 256, x / 2 ^ 16 % 256, x / 2 ^ 8 % 256, x % 256])

def hexDigit (n : Nat) : Char :=
  if n < 10 then Char.ofNat (48 + n) else Char.ofNat (87 + n)

/-- `hex.EncodeToString`. -/
def bytesToHex (bs : List Nat) : String :=
  String.mk (bs.flatMap (fun b => [hexDigit (b / 16), hexDigit (b % 16)]))

/-- UTF-8 bytes of a string. -/
def strBytes (s : String) : List Nat :=
  s.toUTF8.toList.map (fun b => b.toNat)

/-- `Generator.wrapModule`: the fixed loader template with the module id, the
polyfill payload and the compiled code substituted for `%d` / `%s` / `%s`. -/
def wrapModule (moduleCode polyfillContent : String) (moduleID : Nat) :
    String :=
  "(function(global) \x7b\n" ++
  "    global.__module_" ++ toString moduleID ++ " = \x7b\n" ++
  "        init: function(context, deps) \x7b\n" ++
  "            var module = \x7b exports: \x7b\x7d \x7d;\n" ++
  "            var exports = module.exports;\n" ++
  "            \n" ++
  "            var React = deps.React;\n" ++
  "            var ReactDOM = deps.ReactDOM;\n" ++
  "            var useState = React.useState;\n" ++
  "            var useEffect = React.useEffect;\n" ++
  "            var useCallback = React.useCallback;\n" ++
  "            var useMemo = React.useMemo;\n" ++
  "            var useRef = React.useRef;\n" ++
  "            var useContext = React.useContext;\n" ++
  "            var useReducer = React.useReducer;\n" ++
  "            var createElement = React.createElement;\n" ++
  "            var Fragment = React.Fragment;\n" ++
  "            \n" ++
  "            " ++ polyfillContent ++ "\n" ++
  "            \n" ++
  "            var __webpack_require__ = require;\n" ++
  "            var __webpack_exports__ = exports;\n" ++
  "            \n" ++
  "            (function(React, ReactDOM, require, module, exports) \x7b\n" ++
  "                " ++ moduleCode ++ "\n" ++
  "            \x7d)(React, ReactDOM, require, module, exports);\n" ++
  "            \n" ++
  "            var exportedFactory = null;\n" ++
  "            \n" ++
  "            if (module.exports && typeof module.exports === \x27object\x27) \x7b\n" ++
  "                if (typeof module.exports.default === \x27function\x27) \x7b\n" ++
  "                    exportedFactory = module.exports.default;\n" ++
  "                \x7d else if (module.exports.__esModule && typeof module.exports.default === \x27function\x27) \x7b\n" ++
  "                    exportedFactory = module.exports.default;\n" ++
  "                \x7d else \x7b\n" ++
  "                    for (var key in module.exports) \x7b\n" ++
  "                        if (typeof module.exports[key] === \x27function\x27 && key !== \x27__esModule\x27) \x7b\n" ++
  "                            exportedFactory = module.exports[key];\n" ++
  "                            break;\n" ++
  "                        \x7d\n" ++
  "                    \x7d\n" ++
  "                \x7d\n" ++
  "            \x7d else if (typeof module.exports === \x27function\x27) \x7b\n" ++
  "                exportedFactory = module.exports;\n" ++
  "            \x7d\n" ++
  "            \n" ++
  "            if (!exportedFactory || typeof exportedFactory !== \x27function\x27) \x7b\n" ++
  "                throw new Error(\x27No valid factory function found in module exports\x27);\n" ++
  "            \x7d\n" ++
  "            \n" ++
  "            var result = exportedFactory(context);\n" ++
  "            \n" ++
  "            if (!result || typeof result !== \x27object\x27) \x7b\n" ++
  "                throw new Error(\x27Factory must return an object, got: \x27 + typeof result);\n" ++
  "            \x7d\n" ++
  "            \n" ++
  "            if (!result.Component) \x7b\n" ++
  "                throw new Error(\x27Factory result missing Component property\x27);\n" ++
  "            \x7d\n" ++
  "            \n" ++
  "            if (typeof result.Component !== \x27function\x27) \x7b\n" ++
  "                throw new Error(\x27Component must be a function, got: \x27 + typeof result.Component);\n" ++
  "            \x7d\n" ++
  "            \n" ++
  "            return result;\n" ++
  "        \x7d\n" ++
  "    \x7d;\n" ++
  "\x7d)(window);"

/-- `Generator.Generate`.  `polyfillContent` is the runtime payload loaded
from the fixed template location (`""` when absent, which in Go is only a
warning).  Returns the wrapped bundle and its SHA-256 hex checksum. -/
def Generate (moduleCode polyfillContent : String) (moduleID : Nat) :
    String × String :=
  let wrappedCode := wrapModule moduleCode polyfillContent moduleID
  (wrappedCode, bytesToHex (sha256Bytes (strBytes wrappedCode)))

/-! ## Pipeline orchestrator (`buildModule`, build.go) -/

/-- `BuildOptions` (the `NoStrict` flag is already folded into `Strict`). -/
structure BuildOptions where
  Output : String
  Minify : Bool
  Watch : Bool
  Dev : Bool
  Format : String
  SkipChecks : Bool
  Strict : Bool
deriving Repr, DecidableEq

/-- `Parser.ExtractInterfaces` (part of the parser): the captured
`ModuleInterfaces.(\w+)` names, and — when at least one was found — the
result of running `InterfaceValidator.ValidateImplementation` on them.
Returns (interfaces, internal validation error, warnings, whether the
capability check was invoked). -/
def ExtractInterfaces (names : List String)
    (component : Option ComponentSource) :
    List String × Option String × List String × Bool :=
  if names.isEmpty then (names, none, [], false)
  else
    let wr := ValidateImplementation names component
    match wr.2 with
    | .error e =>
      (names, some ("interface validation failed: " ++ e), wr.1, true)
    | .ok _ => (names, none, wr.1, true)

/-- Decidable equality for `Except`, needed to compare pipeline inputs. -/
instance [DecidableEq e] [DecidableEq a] : DecidableEq (Except e a) := fun x y =>
  match x, y with
  | .error u, .error v =>
    if h : u = v then .isTrue (by rw [h]) else .isFalse (by simp [h])
  | .ok u, .ok v =>
    if h : u = v then .isTrue (by rw [h]) else .isFalse (by simp [h])
  | .error _, .ok _ => .isFalse (by simp)
  | .ok _, .error _ => .isFalse (by simp)

/-- Everything `buildModule` reads from the module project, as the query
results of the individual extractor passes. -/
structure ModuleSource where
  metadataBlock : Option MetadataFields
  configSteps : List StepMap
  providerObjs : Option (List ProviderObj)
  interfaceNames : List String
  component : Option ComponentSource
  webhookBlock : Option WebhookBlock
  moduleImpl : Option ModuleImplSource
  permissions : List String
  dataSchema : ModuleDataSchema
  compiled : Except String String
deriving Repr, DecidableEq

/-- The stages of the extraction-and-packaging phase of `buildModule`
(build.go:203-390).  `interfaceCheck` marks an invocation of the
capability-implementation check (`ValidateImplementation`), and
`webhookChecks` an invocation of the webhook validators. -/
inductive ExtractStage where
  | metadata
  | configSteps
  | providers
  | interfaces
  | interfaceCheck
  | webhooks
  | webhookChecks
  | permissions
  | dataSchema
  | compile
  | bundle
deriving Repr, DecidableEq

/-- A run of the extraction phase: final outcome, the stages that were
executed in order, and the printed warnings. -/
structure BuildTrace where
  outcome : Outcome Manifest
  stages : List ExtractStage
  warnings : List String
deriving Repr, DecidableEq

/-- The webhook validation block of `buildModule` (build.go:284-309):
configuration check, implementation check, component-usage check, security
check, each downgraded to a printed warning when strict mode is off.
Returns the outcome together with the warnings printed. -/
def webhookChecksBlock (m : WebhooksMap) (src : ModuleSource)
    (opts : BuildOptions) : Outcome (List String) :=
  let cfg := ValidateWebhookConfiguration (some m)
  let w0 := cfg.1
  match cfg.2 with
  | .error e =>
    if opts.Strict then .failed e
    else
      let w0 := w0 ++ ["Warning: " ++ e]
      match ValidateWebhookImplementation (some m) src.moduleImpl with
      | .panicked => .panicked
      | .failed e2 =>
        if opts.Strict then .failed e2
        else
          let w1 := w0 ++ ["Warning: " ++ e2]
          match ValidateComponentWebhookUsage (some m) src.component with
          | .panicked => .panicked
          | .failed e3 =>
            if opts.Strict then .failed e3
            else .ok (w1 ++ ["Warning: " ++ e3] ++
              ValidateWebhookSecurity src.moduleImpl)
          | .ok w2 => .ok (w1 ++ w2 ++ ValidateWebhookSecurity src.moduleImpl)
      | .ok wimpl =>
        match ValidateComponentWebhookUsage (some m) src.component with
        | .panicked => .panicked
        | .failed e3 =>
          if opts.Strict then .failed e3
          else .ok (w0 ++ wimpl ++ ["Warning: " ++ e3] ++
            ValidateWebhookSecurity src.moduleImpl)
        | .ok w2 =>
          .ok (w0 ++ wimpl ++ w2 ++ ValidateWebhookSecurity src.moduleImpl)
  | .ok _ =>
    match ValidateWebhookImplementation (some m) src.moduleImpl with
    | .panicked => .panicked
    | .failed e2 =>
      if opts.Strict then .failed e2
      else
        let w1 := w0 ++ ["Warning: " ++ e2]
        match ValidateComponentWebhookUsage (some m) src.component with
        | .panicked => .panicked
        | .failed e3 =>
          if opts.Strict then .failed e3
          else .ok (w1 ++ ["Warning: " ++ e3] ++
            ValidateWebhookSecurity src.moduleImpl)
        | .ok w2 => .ok (w1 ++ w2 ++ ValidateWebhookSecurity src.moduleImpl)
    | .ok wimpl =>
      match ValidateComponentWebhookUsage (some m) src.component with
      | .panicked => .panicked
      | .failed e3 =>
        if opts.Strict then .failed e3
        else .ok (w0 ++ wimpl ++ ["Warning: " ++ e3] ++
          ValidateWebhookSecurity src.moduleImpl)
      | .ok w2 =>
        .ok (w0 ++ wimpl ++ w2 ++ ValidateWebhookSecurity src.moduleImpl)

/-- Compilation and bundle generation (build.go:356-390). -/
def pipelineTail2 (src : ModuleSource) (opts : BuildOptions)
    (polyfill timestamp : String) (config : DashspaceConfig)
    (configSteps : List StepMap) (providers : List ProviderMap)
    (interfaces : List String) (webhooks : Option WebhooksMap)
    (t : List ExtractStage) (w : List String) : BuildTrace :=
  let t := t ++ [ExtractStage.compile]
  match src.compiled with
  | .error e => ⟨.failed ("compilation failed: " ++ e), t, w⟩
  | .ok bundleContent =>
    let t := t ++ [ExtractStage.bundle]
    let gen := Generate bundleContent polyfill config.ID
    let manifest := BuildManifest config configSteps providers interfaces
      src.permissions webhooks (some src.dataSchema) gen.2 timestamp
    ⟨.ok manifest, t, w⟩

/-- The tail of the pipeline from the permissions pass on
(build.go:312-390). -/
def pipelineTail (src : ModuleSource) (opts : BuildOptions)
    (polyfill timestamp : String) (config : DashspaceConfig)
    (configSteps : List StepMap) (providers : List ProviderMap)
    (interfaces : List String) (webhooks : Option WebhooksMap)
    (t : List ExtractStage) (w : List String) : BuildTrace :=
  let permissions := src.permissions
  let t := t ++ [ExtractStage.permissions]
  let w := w ++ (if permissions.isEmpty then []
    else (ValidatePermissions permissions).1)
  let t := t ++ [ExtractStage.dataSchema]
  let dsr : Option String :=
    if src.dataSchema.ExposeData && !opts.SkipChecks then
      match (ValidateDataSchema src.dataSchema).2 with
      | .error e => some e
      | .ok _ => none
    else none
  match dsr with
  | some e =>
    if opts.Strict then ⟨.failed e, t, w⟩
    else
      let w := w ++ ["Warning: " ++ e] ++
        (ValidateDataSchema src.dataSchema).1
      pipelineTail2 src opts polyfill timestamp config configSteps providers
        interfaces webhooks t w
  | none =>
    let w := w ++ (if src.dataSchema.ExposeData && !opts.SkipChecks then
      (ValidateDataSchema src.dataSchema).1 else [])
    pipelineTail2 src opts polyfill timestamp config configSteps providers
      interfaces webhooks t w

/-- Webhook extraction and validation (build.go:268-310), then the tail. -/
def buildAfterInterfaces (src : ModuleSource) (opts : BuildOptions)
    (polyfill timestamp : String) (config : DashspaceConfig)
    (configSteps : List StepMap) (providers : List ProviderMap)
    (interfaces : List String) (t : List ExtractStage) (w : List String) :
    BuildTrace :=
  let t := t ++ [ExtractStage.webhooks]
  let webhooks := ExtractWebhooks src.webhookBlock
  match webhooks with
  | some m =>
    if !opts.SkipChecks then
      let t := t ++ [ExtractStage.webhookChecks]
      match webhookChecksBlock m src opts with
      | .panicked => ⟨.panicked, t, w⟩
      | .failed e => ⟨.failed e, t, w⟩
      | .ok w2 =>
        pipelineTail src opts polyfill timestamp config configSteps providers
          interfaces webhooks t (w ++ w2)
    else
      pipelineTail src opts polyfill timestamp config configSteps providers
        interfaces webhooks t w
  | none =>
    pipelineTail src opts polyfill timestamp config configSteps providers
      interfaces webhooks t w

/-- The extraction-and-packaging phase of `buildModule` (build.go:203-390):
metadata (fatal on failure), configuration steps, providers, interfaces
(with the capability check), webhooks (with the webhook validators),
permissions, data schema, compilation and bundle generation, under the
strict / skip-checks policy. -/
def buildExtractPhase (src : ModuleSource) (opts : BuildOptions)
    (polyfill timestamp : String) : BuildTrace :=
  match ExtractMetadata src.metadataBlock with
  | .error e =>
    ⟨.failed ("failed to extract metadata: " ++ e), [ExtractStage.metadata], []⟩
  | .ok config0 =>
    match ValidateMetadata config0 with
    | .error e =>
      ⟨.failed ("invalid metadata: " ++ e), [ExtractStage.metadata], []⟩
    | .ok _ =>
      let configSteps := src.configSteps
      let config := { config0 with
        RequiresSetup := computeRequiresSetup configSteps }
      let providers := ExtractProviders (src.providerObjs.getD [])
      let t := [ExtractStage.metadata, ExtractStage.configSteps,
        ExtractStage.providers, ExtractStage.interfaces]
      let ir := ExtractInterfaces src.interfaceNames src.component
      let t := if ir.2.2.2 then t ++ [ExtractStage.interfaceCheck] else t
      let w := ir.2.2.1
      match ir.2.1 with
      | some e =>
        if opts.Strict then
          ⟨.failed ("interface extraction failed: " ++ e), t, w⟩
        else
          let w := w ++ ["Warning: Failed to extract interfaces: " ++ e]
          buildAfterInterfaces src opts polyfill timestamp config configSteps
            providers [] t w
      | none =>
        if !ir.1.isEmpty && !opts.SkipChecks then
          let t := t ++ [ExtractStage.interfaceCheck]
          let wr := ValidateImplementation ir.1 src.component
          let w := w ++ wr.1
          match wr.2 with
          | .error e =>
            if opts.Strict then ⟨.failed e, t, w⟩
            else
              buildAfterInterfaces src opts polyfill timestamp config
                configSteps providers ir.1 t (w ++ ["Warning: " ++ e])
          | .ok _ =>
            buildAfterInterfaces src opts polyfill timestamp config
              configSteps providers ir.1 t w
        else
          buildAfterInterfaces src opts polyfill timestamp config configSteps
            providers ir.1 t w

/-- The treatment of `ValidateWebhookImplementation`'s result in
`buildModule` (build.go:294-299): a returned error is fatal in strict mode
and a printed warning otherwise; a panic propagates. -/
def webhookImplStage (strict : Bool) (webhooks : Option WebhooksMap)
    (impl : Option ModuleImplSource) : Outcome (List String) :=
  match ValidateWebhookImplementation webhooks impl with
  | .panicked => .panicked
  | .failed e => if strict then .failed e else .ok ["Warning: " ++ e]
  | .ok ws => .ok ws

/-! ## The configuration-step scanner (`StepExtractor`, part_005)

This extractor *is* about text scanning, so it is embedded faithfully over
`List Char`.  The fixed regular expressions of the Go code are implemented
as deterministic matchers (each documented with its regex); scanning loops
carry a fuel argument set to `length + 1`, which is sufficient because every
iteration consumes at least one character — exactly the reason the Go loops
terminate. -/

/-- Go regexp `\s`: `[\t\n\f\r ]`. -/
def isSpaceChar (c : Char) : Bool :=
  c = ' ' || c = '\t' || c = '\n' || c = '\x0c' || c = '\r'

/-- Go regexp `\w`: `[0-9A-Za-z_]`. -/
def isWordChar (c : Char) : Bool :=
  c.isAlpha || c.isDigit || c = '_'

/-- Match a literal and return the rest. -/
def dropLit (lit s : List Char) : Option (List Char) :=
  if lit.isPrefixOf s then some (s.drop lit.length) else none

/-- Length of the maximal prefix satisfying `p`. -/
def countWhile (p : Char → Bool) (s : List Char) : Nat :=
  (s.takeWhile p).length

/-- First index at which `pat` occurs as a substring (Go `strings.Index`). -/
def idxOfSub (s pat : List Char) : Option Nat :=
  if pat.isPrefixOf s then some 0
  else
    match s with
    | [] => none
    | _ :: t => (idxOfSub t pat).map (· + 1)

/-- Matcher for `new\s+ConfigurationStep\s*\(` at the start of `s`: returns
the match length. -/
def matchStepStart (s : List Char) : Option Nat :=
  match dropLit "new".toList s with
  | none => none
  | some r1 =>
    let k := countWhile isSpaceChar r1
    if k = 0 then none
    else
      match dropLit "ConfigurationStep".toList (r1.drop k) with
      | none => none
      | some r2 =>
        let k2 := countWhile isSpaceChar r2
        match r2.drop k2 with
        | '(' :: _ => some (3 + k + 17 + k2 + 1)
        | _ => none

/-- Matcher for `new\s+(\w+Field)\s*\(` at the start of `s`: the capture is
the maximal `\w+` run after the spaces, which (because the next character is
not a word character and `\(` must follow) can only match when the whole run
ends in `Field` with at least one character before it.  Returns the capture
and the match length. -/
def matchFieldStart (s : List Char) : Option (List Char × Nat) :=
  match dropLit "new".toList s with
  | none => none
  | some r1 =>
    let k := countWhile isSpaceChar r1
    if k = 0 then none
    else
      let run := (r1.drop k).takeWhile isWordChar
      if run.length < 6 || !("Field".toList.isSuffixOf run) then none
      else
        let r2 := (r1.drop k).drop run.length
        let k2 := countWhile isSpaceChar r2
        match r2.drop k2 with
        | '(' :: _ => some (run, 3 + k + run.length + k2 + 1)
        | _ => none

/-- Largest `j ≥ 1` such that `Field` occurs at offset `j` of `run`
(the backtracking of `(\w+Field)` without a following `\(`). -/
def lastFieldAt (run : List Char) : Nat → Option Nat
  | 0 => none
  | j + 1 =>
    if 1 ≤ j && "Field".toList.isPrefixOf (run.drop j) then some j
    else lastFieldAt run j

/-- Matcher for `new\s+(\w+Field)` (the `fieldTypeMatch` regex, with no
following `\(`): the capture ends at the rightmost `Field` inside the
maximal `\w+` run with at least one character before it. -/
def matchFieldClass (s : List Char) : Option (List Char) :=
  match dropLit "new".toList s with
  | none => none
  | some r1 =>
    let k := countWhile isSpaceChar r1
    if k = 0 then none
    else
      let run := (r1.drop k).takeWhile isWordChar
      match lastFieldAt run run.length with
      | none => none
      | some j => some (run.take (j + 5))

/-- `regexp.FindAll…` scanning: try the matcher at each position from left
to right, jumping over a match (non-overlapping).  The matcher returns the
capture and the match length; `max len 1` only guards the (unreachable for
our nonempty patterns) empty-match case.  `fuel` bounds the number of
iterations; `length + 1` is always enough. -/
def goFindAll (m : List Char → Option (α × Nat)) :
    Nat → List Char → Nat → List (Nat × α)
  | 0, _, _ => []
  | _ + 1, [], _ => []
  | fuel + 1, c :: t, pos =>
    match m (c :: t) with
    | some (a, len) =>
      let k := max len 1
      (pos, a) :: goFindAll m fuel (t.drop (k - 1)) (pos + k)
    | none => goFindAll m fuel t (pos + 1)

/-- First successful match of `m` over the suffixes of `s`
(`FindStringSubmatch` semantics: leftmost match wins). -/
def scanFirst (m : List Char → Option α) : List Char → Option α
  | [] => m []
  | c :: t =>
    match m (c :: t) with
    | some v => some v
    | none => scanFirst m t

/-- Pair each start index with the next one (or with `len` for the last),
as the slicing loops of `ExtractSteps` / `extractFields` do. -/
def pairsWithNext : List Nat → Nat → List (Nat × Nat)
  | [], _ => []
  | [a], len => [(a, len)]
  | a :: b :: rest, len => (a, b) :: pairsWithNext (b :: rest) len

/-- Go slice `s[a:b]`. -/
def sliceBetween (s : List Char) (a b : Nat) : List Char :=
  (s.take b).drop a

/-- The brace-counting loop: starting at absolute index `j` with counter
`depth` (an integer, as in Go), return the index of the character that
brings the counter back to zero. -/
def braceCloseLoop : List Char → Int → Nat → Option Nat
  | [], _, _ => none
  | c :: t, depth, j =>
    if c = '{' then braceCloseLoop t (depth + 1) (j + 1)
    else if c = '}' then
      if depth - 1 = 0 then some j else braceCloseLoop t (depth - 1) (j + 1)
    else braceCloseLoop t depth (j + 1)

/-- Same loop for brackets. -/
def bracketCloseLoop : List Char → Int → Nat → Option Nat
  | [], _, _ => none
  | c :: t, depth, j =>
    if c = '[' then bracketCloseLoop t (depth + 1) (j + 1)
    else if c = ']' then
      if depth - 1 = 0 then some j else bracketCloseLoop t (depth - 1) (j + 1)
    else bracketCloseLoop t depth (j + 1)

/-- The recurring block carve-out of `ExtractSteps` / `extractFields`: find
the first `{`, count braces to the matching `}`, return the content between
them (`none` models the two `continue`s). -/
def scanInnerBlock (block : List Char) : Option (List Char) :=
  match block.findIdx? (· = '{') with
  | none => none
  | some openBrace =>
    match braceCloseLoop (block.drop openBrace) 0 openBrace with
    | none => none
    | some closeBrace => some (sliceBetween block (openBrace + 1) closeBrace)

/-- `key:\s*['"]([^'"]+)['"]` at the start of `s`: returns the capture. -/
def matchKeyString (key : List Char) (s : List Char) : Option (List Char) :=
  match dropLit key s with
  | none => none
  | some r1 =>
    match r1 with
    | ':' :: r2 =>
      let k := countWhile isSpaceChar r2
      match r2.drop k with
      | q :: r3 =>
        if q = '\x27' || q = '"' then
          let v := r3.takeWhile (fun c => !(c = '\x27' || c = '"'))
          if v.isEmpty then none
          else
            match r3.drop v.length with
            | q2 :: _ => if q2 = '\x27' || q2 = '"' then some v else none
            | [] => none
        else none
      | [] => none
    | _ => none

/-- `key:\s*(\d+)` at the start of `s`: returns the numeral. -/
def matchKeyNumber (key : List Char) (s : List Char) : Option Nat :=
  match dropLit key s with
  | none => none
  | some r1 =>
    match r1 with
    | ':' :: r2 =>
      let k := countWhile isSpaceChar r2
      let ds := (r2.drop k).takeWhile Char.isDigit
      if ds.isEmpty then none
      else some (ds.foldl (fun n c => n * 10 + (c.toNat - 48)) 0)
    | _ => none

/-- `key:\s*(true|false)` at the start of `s`. -/
def matchKeyBool (key : List Char) (s : List Char) : Option Bool :=
  match dropLit key s with
  | none => none
  | some r1 =>
    match r1 with
    | ':' :: r2 =>
      let k := countWhile isSpaceChar r2
      if "true".toList.isPrefixOf (r2.drop k) then some true
      else if "false".toList.isPrefixOf (r2.drop k) then some false
      else none
    | _ => none

/-- `extractStringValue`: first match of `key:\s*['"]([^'"]+)['"]`,
`""` when absent. -/
def extractStringValue (content key : String) : String :=
  match scanFirst (matchKeyString key.toList) content.toList with
  | some v => String.mk v
  | none => ""

/-- `extractNumberValue`: first match of `key:\s*(\d+)`; the Go function
returns `-1` when there is no match, modelled as `none`. -/
def extractNumberValue (content key : String) : Option Nat :=
  scanFirst (matchKeyNumber key.toList) content.toList

/-- `extractBoolValue`: first match of `key:\s*(true|false)`, `false` when
absent. -/
def extractBoolValue (content key : String) : Bool :=
  match scanFirst (matchKeyBool key.toList) content.toList with
  | some b => b
  | none => false

/-- `extractDefaultValue`: string form first, then number, then boolean. -/
def extractDefaultValue (content : String) : Option FVal :=
  match scanFirst (matchKeyString "defaultValue".toList) content.toList with
  | some v => some (.str (String.mk v))
  | none =>
    match scanFirst (matchKeyNumber "defaultValue".toList) content.toList with
    | some n => some (.num n)
    | none =>
      match scanFirst (matchKeyBool "defaultValue".toList) content.toList with
      | some b => some (.bool b)
      | none => none

/-- `extractValidationBlock`: locate `validation:`, then the first `{` after
it, then the matching `}`; `""` when any step fails. -/
def extractValidationBlock (content : String) : String :=
  let cs := content.toList
  match idxOfSub cs "validation:".toList with
  | none => ""
  | some validationIdx =>
    match idxOfSub (cs.drop validationIdx) ['\x7b'] with
    | none => ""
    | some rel =>
      let startIdx := rel + validationIdx
      match braceCloseLoop (cs.drop startIdx) 0 startIdx with
      | none => ""
      | some endIdx =>
        if endIdx ≤ startIdx then ""
        else String.mk (sliceBetween cs (startIdx + 1) endIdx)

/-- The option-pair matcher
`\{\s*value:\s*['"]([^'"]+)['"],\s*label:\s*['"]([^'"]+)['"]\s*\}`. -/
def matchOptionPair (s : List Char) : Option ((String × String) × Nat) :=
  match s with
  | '\x7b' :: r1 =>
    let k1 := countWhile isSpaceChar r1
    match matchKeyString "value".toList (r1.drop k1) with
    | none => none
    | some v =>
      -- the matched prefix `value:\s*['"]v['"]` has a computable length
      let lenv := 5 + 1 + countWhile isSpaceChar ((r1.drop k1).drop 6) +
        1 + v.length + 1
      match ((r1.drop k1).drop lenv) with
      | ',' :: r2 =>
        let k2 := countWhile isSpaceChar r2
        match matchKeyString "label".toList (r2.drop k2) with
        | none => none
        | some l =>
          let lenl := 5 + 1 + countWhile isSpaceChar ((r2.drop k2).drop 6) +
            1 + l.length + 1
          let r3 := (r2.drop k2).drop lenl
          let k3 := countWhile isSpaceChar r3
          match r3.drop k3 with
          | '\x7d' :: _ =>
            some ((String.mk v, String.mk l),
              1 + k1 + lenv + 1 + k2 + lenl + k3 + 1)
          | _ => none
      | _ => none
  | _ => none

/-- `extractSelectOptions`: locate `options:`, the first `[` after it, the
matching `]`, and collect all option pairs inside. -/
def extractSelectOptions (content : String) : List (String × String) :=
  let cs := content.toList
  match idxOfSub cs "options:".toList with
  | none => []
  | some optionsIdx =>
    match idxOfSub (cs.drop optionsIdx) ['['] with
    | none => []
    | some rel =>
      let startIdx := rel + optionsIdx
      match bracketCloseLoop (cs.drop startIdx) 0 startIdx with
      | none => []
      | some endIdx =>
        if endIdx ≤ startIdx then []
        else
          let optionsContent := sliceBetween cs (startIdx + 1) endIdx
          (goFindAll matchOptionPair (optionsContent.length + 1)
            optionsContent 0).map (·.2)

/-- `getFieldType`: map a field class name to its type string. -/
def getFieldType (fieldClass : String) : String :=
  if fieldClass = "TextField" then "text"
  else if fieldClass = "NumberField" then "number"
  else if fieldClass = "SelectField" then "select"
  else if fieldClass = "BooleanField" then "boolean"
  else if fieldClass = "PasswordField" then "password"
  else if fieldClass = "UrlField" then "url"
  else if fieldClass = "DateField" then "date"
  else if fieldClass = "ColorField" then "color"
  else if fieldClass = "EmailField" then "email"
  else "text"

/-- `StepExtractor.extractValidation`. -/
def extractValidation (fieldContent : String) (fieldType : String) :
    ValidationMap :=
  let validationContent := extractValidationBlock fieldContent
  let v : ValidationMap := []
  let v := if validationContent ≠ "" && extractBoolValue validationContent "required" then
      v ++ [("required", .bool true)] else v
  let v := if validationContent ≠ "" && extractStringValue validationContent "pattern" ≠ "" then
      v ++ [("pattern", .str (extractStringValue validationContent "pattern"))]
    else v
  let v := if validationContent ≠ "" && extractStringValue validationContent "customMessage" ≠ "" then
      v ++ [("customMessage",
        .str (extractStringValue validationContent "customMessage"))]
    else v
  let v := if fieldType = "NumberField" then
      let v := match extractNumberValue fieldContent "min" with
        | some n => v ++ [("min", .num n)]
        | none => v
      match extractNumberValue fieldContent "max" with
      | some n => v ++ [("max", .num n)]
      | none => v
    else v
  let v := if fieldType = "SelectField" then
      let opts := extractSelectOptions fieldContent
      if !opts.isEmpty then v ++ [("options", .opts opts)] else v
    else v
  v

/-- The per-field body of the `extractFields` loop: carve the field block,
read the class name, carve the options object, and build the field map. -/
def processFieldBlock (fieldBlock : List Char) : Option FieldMap :=
  match scanFirst matchFieldClass fieldBlock with
  | none => none
  | some fieldTypeChars =>
    let fieldType := String.mk fieldTypeChars
    match scanInnerBlock fieldBlock with
    | none => none
    | some fieldContentChars =>
      let fieldContent := String.mk fieldContentChars
      let field : FieldMap := [("type", .str (getFieldType fieldType))]
      let field := if extractStringValue fieldContent "name" ≠ "" then
          field ++ [("name", .str (extractStringValue fieldContent "name"))]
        else field
      let field := if extractStringValue fieldContent "label" ≠ "" then
          field ++ [("label", .str (extractStringValue fieldContent "label"))]
        else field
      let field := if extractStringValue fieldContent "description" ≠ "" then
          field ++ [("description",
            .str (extractStringValue fieldContent "description"))]
        else field
      let field := if extractStringValue fieldContent "placeholder" ≠ "" then
          field ++ [("placeholder",
            .str (extractStringValue fieldContent "placeholder"))]
        else field
      let field := match extractDefaultValue fieldContent with
        | some v => field ++ [("defaultValue", v)]
        | none => field
      let validation := extractValidation fieldContent fieldType
      let field := if !validation.isEmpty then
          field ++ [("validation", .validation validation)] else field
      some field

/-- `StepExtractor.extractFields`. -/
def extractFields (stepContent : String) : List FieldMap :=
  let cs := stepContent.toList
  match idxOfSub cs "fields:".toList with
  | none => []
  | some fieldsIdx =>
    match idxOfSub (cs.drop (fieldsIdx + 7)) ['['] with
    | none => []
    | some arrayStart =>
      let actualStart := fieldsIdx + 7 + arrayStart
      match bracketCloseLoop (cs.drop actualStart) 0 actualStart with
      | none => []
      | some arrayEnd =>
        let fieldsContent := sliceBetween cs (actualStart + 1) arrayEnd
        let allFieldStarts := (goFindAll matchFieldStart
          (fieldsContent.length + 1) fieldsContent 0).map (·.1)
        (pairsWithNext allFieldStarts fieldsContent.length).filterMap
          (fun se => processFieldBlock (sliceBetween fieldsContent se.1 se.2))

/-- `StepExtractor.parseStep`. -/
def parseStep (stepContent : String) : StepMap :=
  let step : StepMap := []
  let step := if extractStringValue stepContent "id" ≠ "" then
      step ++ [("id", .str (extractStringValue stepContent "id"))] else step
  let step := if extractStringValue stepContent "title" ≠ "" then
      step ++ [("title", .str (extractStringValue stepContent "title"))]
    else step
  let step := if extractStringValue stepContent "description" ≠ "" then
      step ++ [("description",
        .str (extractStringValue stepContent "description"))]
    else step
  let step := match extractNumberValue stepContent "order" with
    | some n => step ++ [("order", .num n)]
    | none => step
  let step := if extractBoolValue stepContent "optional" then
      step ++ [("optional", .bool true)] else step
  let fields := extractFields stepContent
  let step := if !fields.isEmpty then
      step ++ [("fields", .fieldArr fields)] else step
  step

/-- The per-step body of the `ExtractSteps` loop: carve the step block and
parse it; an empty parsed map is dropped (`len(step) > 0`). -/
def processStepBlock (stepBlock : List Char) : Option StepMap :=
  match scanInnerBlock stepBlock with
  | none => none
  | some stepContent =>
    let step := parseStep (String.mk stepContent)
    if step.isEmpty then none else some step

/-- The start indices of `new\s+ConfigurationStep\s*\(` matches. -/
def stepStarts (cs : List Char) : List Nat :=
  (goFindAll (fun s => (matchStepStart s).map (fun len => ((), len)))
    (cs.length + 1) cs 0).map (·.1)

/-- `StepExtractor.ExtractSteps`. -/
def ExtractSteps (stepsContent : String) : List StepMap :=
  let cs := stepsContent.toList
  (pairsWithNext (stepStarts cs) cs.length).filterMap
    (fun se => processStepBlock (sliceBetween cs se.1 se.2))

/-- The number of `new\s+ConfigurationStep\s*\(` literals in an array body. -/
def countStepLiterals (stepsContent : String) : Nat :=
  (stepStarts stepsContent.toList).length

/-! ### The rendered family of step arrays used by the C7 theorem -/

/-- `joinChars sep [x₁, …, xₙ] = x₁ ++ sep ++ … ++ sep ++ xₙ`. -/
def joinChars (sep : List Char) : List (List Char) → List Char
  | [] => []
  | [x] => x
  | x :: y :: rest => x ++ sep ++ joinChars sep (y :: rest)

/-- A field literal `new TextField({})`. -/
def fieldLit : List Char := "new TextField(\x7b\x7d)".toList

/-- `k` field literals separated by `, `. -/
def renderFields (k : Nat) : List Char :=
  joinChars ", ".toList (List.replicate k fieldLit)

/-- The body of a step literal with `k` field literals. -/
def stepBody (k : Nat) : List Char :=
  "fields: [".toList ++ renderFields k ++ "]".toList

/-- A step literal `new ConfigurationStep({fields: [ … ]})`. -/
def renderStep (k : Nat) : List Char :=
  "new ConfigurationStep(\x7b".toList ++ stepBody k ++ "\x7d)".toList

/-- A configuration-step array body with one step literal per entry of `ks`,
the `i`-th containing `ks[i]` field literals. -/
def renderSteps (ks : List Nat) : String :=
  String.mk (joinChars ", ".toList (ks.map renderStep))

/-- The field map the extractor builds for `new TextField({})`. -/
def textFieldMap : FieldMap := [("type", .str "text")]

/-- The step map the extractor builds for a rendered step with `k ≥ 1`
field literals. -/
def renderedStepMap (k : Nat) : StepMap :=
  [("fields", .fieldArr (List.replicate k textFieldMap))]

/-- The step matcher fed to `goFindAll` by `stepStarts`, named. -/
def stepMatcher : List Char → Option (Unit × Nat) :=
  fun s => (matchStepStart s).map (fun len => ((), len))

/-- The expected start offsets of the step literals of `renderSteps ks`,
starting at `o`: each literal is followed by the 2-character separator. -/
def stepOffsets : List Nat → Nat → List Nat
  | [], _ => []
  | k :: ks, o => o :: stepOffsets ks (o + (renderStep k).length + 2)

/-! ## Concrete inputs used by witnesses and counterexamples -/

/-- A sample identity block: nonzero id, a name, no version, no slug. -/
def sampleMeta : MetadataFields :=
  { id := some 7, slug := none, name := some "My App", version := none,
    description := none, author := none, icon := none, category := none,
    tags := none }

/-- An identity block with no `id:` match at all. -/
def emptyMeta : MetadataFields :=
  { id := none, slug := none, name := some "X", version := none,
    description := none, author := none, icon := none, category := none,
    tags := none }

/-- A data schema that exposes no data. -/
def noDataSchema : ModuleDataSchema :=
  { ExposeData := false, DataType := "", Schema := none, ComputedFields := [] }

/-- A module source whose identity block lacks an id. -/
def noIdSource : ModuleSource :=
  { metadataBlock := some emptyMeta, configSteps := [], providerObjs := none,
    interfaceNames := [], component := none, webhookBlock := none,
    moduleImpl := none, permissions := [], dataSchema := noDataSchema,
    compiled := .ok "" }

/-- The default build options (strict on, checks on). -/
def defaultOpts : BuildOptions :=
  { Output := "dist", Minify := true, Watch := false, Dev := false,
    Format := "js", SkipChecks := false, Strict := true }

/-- A component that uses the `useModuleInterfaces` hook and implements an
`ISearchable` handlers sub-block omitting `getSearchFilters`. -/
def searchableNoFiltersComponent : ComponentSource :=
  { usesModuleInterfaces := true
    handlersBlock := some
      [⟨"ISearchable",
        ["search", "getSearchResults", "translateUQLQuery",
         "getUQLCapabilities"]⟩]
    containsUseWebhook := false
    webhookHookCallPresent := false
    referencedEvents := [] }

/-- The required-method list of the `ISearchable` capability. -/
def searchableMethods : List String :=
  ["search", "getSearchResults", "getSearchFilters", "translateUQLQuery",
   "getUQLCapabilities"]

/-- A webhook configuration declaring events `issues` and `pull_request`. -/
def issuesPrWebhooks : WebhooksMap :=
  [("provider", .str "github"),
   ("events", .strList ["issues", "pull_request"])]

/-- A module implementation registering a handler for `issues` only, with
handler methods for both events and the `WebhookEvent` type referenced. -/
def issuesOnlyImpl : ModuleImplSource :=
  { extendsBaseModule := true
    registerCalls := ["issues"]
    hasHandlerEventMethod := true
    containsWebhookEvent := true
    handlerMethodFor := ["Issues", "PullRequest"]
    handlerLacksTryCatch := false
    containsEventData := true
    containsThisEmit := true }

/-- A webhooks map with a provider entry but no `events` key, as produced by
`ExtractWebhooks` when only the provider was matched. -/
def noEventsWebhooks : WebhooksMap := [("provider", .str "github")]

/-- A module implementation that extends `BaseModule`, references the
`WebhookEvent` type, but registers no handlers. -/
def noRegisterImpl : ModuleImplSource :=
  { extendsBaseModule := true
    registerCalls := []
    hasHandlerEventMethod := false
    containsWebhookEvent := true
    handlerMethodFor := []
    handlerLacksTryCatch := false
    containsEventData := true
    containsThisEmit := true }

/-- A module source around `noRegisterImpl`, used to drive the webhook
validation block of the pipeline. -/
def noEventsSource : ModuleSource :=
  { metadataBlock := some sampleMeta, configSteps := [], providerObjs := none,
    interfaceNames := [], component := none,
    webhookBlock := some { provider := some (.lit "github"), events := none,
                           configFields := none },
    moduleImpl := some noRegisterImpl, permissions := [],
    dataSchema := noDataSchema, compiled := .ok "" }

/-- The default options with strict mode off (`--no-strict`). -/
def noStrictOpts : BuildOptions :=
  { defaultOpts with Strict := false }

/-- A provider object in enum form (`provider: Provider.GITHUB`). -/
def enumProviderObj : ProviderObj :=
  { providerEnum := some "GITHUB"
    providerLit := none
    requiredTrue := false
    requiredFalse := false
    scopes := none
    description := none }

/-- A provider object whose provider is a plain string literal. -/
def litProviderObj : ProviderObj :=
  { providerEnum := none
    providerLit := some "github"
    requiredTrue := false
    requiredFalse := false
    scopes := none
    description := none }

/-- A webhooks block whose provider is a plain string literal. -/
def litProviderWebhookBlock : WebhookBlock :=
  { provider := some (ProviderForm.lit "github")
    events := none
    configFields := none }

/-- A data schema whose `dataType` is invalid *and* that contains a field
with an invalid type. -/
def badTypeSchema : ModuleDataSchema :=
  { ExposeData := true
    DataType := "custom"
    Schema := some
      { Fields := [{ Name := "count", Typ := "weird", Description := "",
                     Nullable := false, Example := "" }]
        Capabilities := [] }
    ComputedFields := [] }

/-- Sanity evaluation of `ExtractMetadata` on the sample identity block. -/
theorem extractMetadata_sample_eval :
    ExtractMetadata (some sampleMeta) =
      .ok ({ DashspaceConfig.zero with
              ID := 7
              Name := "My App"
              Version := "1.0.0"
              Slug := "my-app"
              Entry := "bundle.js" }) := by
  rfl

/-! ## Theorems -/

/-- Characterization of `parseMetadataFields`: each matched field overrides
the config, everything else is preserved. -/
theorem parseMetadataFields_eq (m : MetadataFields) (c : DashspaceConfig) :
    parseMetadataFields m c =
      { c with
        ID := m.id.getD c.ID
        Slug := m.slug.getD c.Slug
        Name := m.name.getD c.Name
        Version := m.version.getD c.Version
        Description := m.description.getD c.Description
        Author := m.author.getD c.Author
        Icon := m.icon.getD c.Icon
        Category := m.category.getD c.Category
        Tags := m.tags.getD c.Tags } := by
  obtain ⟨i, s, n, v, d, a, ic, ca, t⟩ := m
  cases i <;> cases s <;> cases n <;> cases v <;> cases d <;> cases a <;>
    cases ic <;> cases ca <;> cases t <;> rfl

/-- **C1**: for every identity options block with a nonzero `id` and a
nonempty `name`, `ExtractMetadata` succeeds unconditionally; independently,
the resulting descriptor's `Version` is `"1.0.0"` whenever no `version` key
matched, and its `Slug` is `sanitizeSlug name` whenever no `slug` key
matched (each conditional on its own, also in mixed-presence blocks). -/
theorem extractMetadata_defaults (m : MetadataFields) (n : Nat) (s : String)
    (hid : m.id = some n) (hn : n ≠ 0)
    (hname : m.name = some s) (hs : s ≠ "") :
    ∃ c, ExtractMetadata (some m) = .ok c ∧ c.ID = n ∧ c.Name = s ∧
      (m.version = none → c.Version = "1.0.0") ∧
      (m.slug = none → c.Slug = sanitizeSlug s) := by
  simp only [ExtractMetadata, parseMetadataFields_eq, hid, hname,
    Option.getD_some, DashspaceConfig.zero]
  rw [if_neg hn, if_neg hs]
  refine ⟨_, rfl, ?_, ?_, ?_, ?_⟩
  · split_ifs <;> rfl
  · split_ifs <;> rfl
  · intro hv
    simp only [hv, Option.getD_none, if_true]
    split_ifs <;> rfl
  · intro hsl
    simp only [hsl, Option.getD_none]
    split_ifs <;> simp_all

/-- Witness for C1 at a concrete block. -/
theorem extractMetadata_defaults_witness :
    sampleMeta.id = some 7 ∧ (7 : Nat) ≠ 0 ∧
    sampleMeta.name = some "My App" ∧ "My App" ≠ "" ∧
    ∃ c, ExtractMetadata (some sampleMeta) = .ok c ∧ c.ID = 7 ∧
      c.Name = "My App" ∧
      (sampleMeta.version = none → c.Version = "1.0.0") ∧
      (sampleMeta.slug = none → c.Slug = sanitizeSlug "My App") :=
  ⟨rfl, by decide, rfl, by decide,
    extractMetadata_defaults sampleMeta 7 "My App" rfl (by decide) rfl
      (by decide)⟩

/-- **C2**: when the identity options block has no `id` key (or `id: 0`),
the build fails fatally at metadata extraction, and no other section is
extracted or processed afterwards (the stage trace is just `[metadata]`). -/
theorem build_fails_without_id (src : ModuleSource) (opts : BuildOptions)
    (polyfill timestamp : String) (mb : MetadataFields)
    (hmb : src.metadataBlock = some mb)
    (hid : mb.id = none ∨ mb.id = some 0) :
    buildExtractPhase src opts polyfill timestamp =
      ⟨.failed "failed to extract metadata: module ID not found in DashspaceModuleFactory",
       [ExtractStage.metadata], []⟩ := by
  have hex : ExtractMetadata src.metadataBlock =
      .error "module ID not found in DashspaceModuleFactory" := by
    rw [hmb]
    simp only [ExtractMetadata, parseMetadataFields_eq]
    rcases hid with h | h <;> simp [h, DashspaceConfig.zero]
  simp [buildExtractPhase, hex]

/-- Witness for C2 at a concrete module source. -/
theorem build_fails_without_id_witness :
    noIdSource.metadataBlock = some emptyMeta ∧
    (emptyMeta.id = none ∨ emptyMeta.id = some 0) ∧
    buildExtractPhase noIdSource defaultOpts "" "t0" =
      ⟨.failed "failed to extract metadata: module ID not found in DashspaceModuleFactory",
       [ExtractStage.metadata], []⟩ :=
  ⟨rfl, Or.inl rfl,
    build_fails_without_id noIdSource defaultOpts "" "t0" emptyMeta rfl
      (Or.inl rfl)⟩

/-- Unfolding of `runMethodChecks` on the result component. -/
theorem runMethodChecks_snd_cons (handlers : List HandlerEntry) (n : String)
    (rest : List String) :
    (runMethodChecks handlers (n :: rest)).2 =
      (match (validateInterfaceMethods handlers n).2 with
       | .error e =>
         .error ("interface " ++ n ++ " validation failed: " ++ e)
       | .ok _ => (runMethodChecks handlers rest).2) := by
  simp only [runMethodChecks]
  rcases validateInterfaceMethods handlers n with ⟨w, r⟩
  cases r <;> simp

/-- Helper for C3: `runMethodChecks` reports the `ISearchable` failure when
every other implemented sub-key passes its method check. -/
theorem runMethodChecks_isearchable_err (handlers : List HandlerEntry)
    (l : List String) (e : String)
    (hmem : "ISearchable" ∈ l)
    (hok : ∀ n ∈ l, n ≠ "ISearchable" →
      (validateInterfaceMethods handlers n).2 = .ok ())
    (herr : (validateInterfaceMethods handlers "ISearchable").2 = .error e) :
    (runMethodChecks handlers l).2 =
      .error ("interface ISearchable validation failed: " ++ e) := by
  induction l with
  | nil => cases hmem
  | cons n rest ih =>
    rw [runMethodChecks_snd_cons]
    by_cases hn : n = "ISearchable"
    · subst hn
      rw [herr]
      rfl
    · rw [hok n (List.mem_cons_self n rest) hn]
      have hmem2 : "ISearchable" ∈ rest := by
        rcases List.mem_cons.mp hmem with h | h
        · exact absurd h.symm hn
        · exact h
      exact ih hmem2 (fun x hx => hok x (List.mem_cons_of_mem n hx))

/-- **C3 counterexample**: the claim quantifies over *every* declared list
containing `"Searchable"`; with `["Searchable", "Refreshable"]` declared and
only an `ISearchable` block (missing `getSearchFilters`) implemented, the
capability check fails with a message about `Refreshable` that does not name
`getSearchFilters`. -/
theorem interface_check_counterexample :
    (ValidateImplementation ["Searchable", "Refreshable"]
        (some searchableNoFiltersComponent)).2 =
      .error "interface Refreshable declared in Module.ts but not implemented in Component.tsx" ∧
    strContains
      "interface Refreshable declared in Module.ts but not implemented in Component.tsx"
      "getSearchFilters" = false := by
  constructor
  · rfl
  · decide

/-- **C3** (amended): if every declared interface (among them `Searchable`)
has a matching implemented sub-key, the first handlers sub-key named
`ISearchable` omits `getSearchFilters`, and every other implemented sub-key
passes its method check, then the capability check fails with a message
naming `getSearchFilters` among the missing methods; and (second part, claim
unchanged) when the extracted interface list is empty the
capability-implementation check is not invoked at all and the interfaces
stage succeeds without warnings. -/
theorem interface_check_missing_getSearchFilters
    (declared : List String) (comp : ComponentSource)
    (handlers : List HandlerEntry) (entry : HandlerEntry)
    (hhook : comp.usesModuleInterfaces = true)
    (hblock : comp.handlersBlock = some handlers)
    (hdecl : "Searchable" ∈ declared)
    (hmatched : ∀ d ∈ declared, ∃ i ∈ extractImplementedInterfaces handlers,
      interfaceMatches d i = true)
    (hfind : handlers.find? (fun e => e.name = "ISearchable") = some entry)
    (hmiss : entry.methods.contains "getSearchFilters" = false)
    (hothers : ∀ n ∈ extractImplementedInterfaces handlers,
      n ≠ "ISearchable" → (validateInterfaceMethods handlers n).2 = .ok ()) :
    ("getSearchFilters" ∈ missingMethodsOf entry.methods searchableMethods ∧
     (ValidateImplementation declared (some comp)).2 =
       .error ("interface ISearchable validation failed: missing methods: " ++
         goFmtStrSlice (missingMethodsOf entry.methods searchableMethods))) ∧
    ∀ component : Option ComponentSource,
      ExtractInterfaces [] component = ([], none, [], false) := by
  have hentrymem : entry ∈ handlers := List.mem_of_find?_eq_some hfind
  have hname : entry.name = "ISearchable" := by
    have h := List.find?_some hfind
    simpa using h
  have himpl : "ISearchable" ∈ extractImplementedInterfaces handlers := by
    unfold extractImplementedInterfaces
    rw [List.mem_map]
    refine ⟨entry, ?_, hname⟩
    rw [List.mem_filter]
    refine ⟨hentrymem, ?_⟩
    rw [hname]
    decide
  have hmissmem : "getSearchFilters" ∈
      missingMethodsOf entry.methods searchableMethods := by
    unfold missingMethodsOf
    rw [List.mem_filter]
    refine ⟨by decide, by simpa using hmiss⟩
  have herr : (validateInterfaceMethods handlers "ISearchable").2 =
      .error ("missing methods: " ++
        goFmtStrSlice (missingMethodsOf entry.methods searchableMethods)) := by
    have hne : (missingMethodsOf entry.methods searchableMethods).isEmpty
        = false := by
      rcases hm : missingMethodsOf entry.methods searchableMethods with _ | _
      · rw [hm] at hmissmem
        cases hmissmem
      · rfl
    simp only [validateInterfaceMethods]
    rw [show requiredMethodsTable "ISearchable" = some searchableMethods
      from rfl]
    rw [hfind]
    simp only [hne]
    rfl
  refine ⟨⟨hmissmem, ?_⟩, fun component => rfl⟩
  simp only [ValidateImplementation, hhook, hblock, Bool.not_true,
    Bool.false_eq_true, if_false]
  rw [List.find?_eq_none.mpr ?_]
  · exact runMethodChecks_isearchable_err handlers _ _ himpl hothers herr
  · intro d hd
    rcases hmatched d hd with ⟨i, hi, hmatch⟩
    have hany : (extractImplementedInterfaces handlers).any
        (fun i => interfaceMatches d i) = true :=
      List.any_eq_true.mpr ⟨i, hi, hmatch⟩
    simp [hany]

/-- Witness for C3 at a concrete component. -/
theorem interface_check_missing_getSearchFilters_witness :
    ("getSearchFilters" ∈ missingMethodsOf
        ["search", "getSearchResults", "translateUQLQuery",
         "getUQLCapabilities"] searchableMethods ∧
     (ValidateImplementation ["Searchable"]
         (some searchableNoFiltersComponent)).2 =
       .error ("interface ISearchable validation failed: missing methods: " ++
         goFmtStrSlice (missingMethodsOf
           ["search", "getSearchResults", "translateUQLQuery",
            "getUQLCapabilities"] searchableMethods))) ∧
    ∀ component : Option ComponentSource,
      ExtractInterfaces [] component = ([], none, [], false) :=
  interface_check_missing_getSearchFilters ["Searchable"]
    searchableNoFiltersComponent
    [⟨"ISearchable",
      ["search", "getSearchResults", "translateUQLQuery",
       "getUQLCapabilities"]⟩]
    ⟨"ISearchable",
     ["search", "getSearchResults", "translateUQLQuery",
      "getUQLCapabilities"]⟩
    rfl rfl (by decide) (by decide) rfl (by decide) (by decide)

/-- **C4 counterexample**: with events `["issues","pull_request"]` and a
registration call for `issues` only, the webhook-implementation check in
strict mode does *not* produce a fatal error — `ValidateWebhookImplementation`
only prints the warning and returns success, so strict mode has no error to
promote. -/
theorem webhook_strict_counterexample :
    webhookImplStage true (some issuesPrWebhooks) (some issuesOnlyImpl) =
      .ok ["Warning: Event \x27pull_request\x27 declared in metadata but no handler registered in initialize()"] ∧
    ∀ e, webhookImplStage true (some issuesPrWebhooks) (some issuesOnlyImpl)
      ≠ .failed e := by
  refine ⟨by decide, ?_⟩
  intro e h
  rw [show webhookImplStage true (some issuesPrWebhooks)
      (some issuesOnlyImpl) =
    .ok ["Warning: Event \x27pull_request\x27 declared in metadata but no handler registered in initialize()"]
    from by decide] at h
  exact Outcome.noConfusion h

/-- **C4** (amended): for a declared event list containing `pull_request`
with no registration call for it (but at least one registration call, a
`BaseModule` parent and a `WebhookEvent` reference), the
webhook-implementation check produces a printed warning naming
`pull_request` in *both* modes, and returns success, so there is no fatal
error even when strict mode is on. -/
theorem webhook_missing_registration_warns
    (m : WebhooksMap) (src : ModuleImplSource) (events : List String)
    (hev : getStrList? m "events" = some events)
    (hpr : "pull_request" ∈ events)
    (hreg : src.registerCalls.contains "pull_request" = false)
    (hregne : src.registerCalls ≠ [])
    (hbase : src.extendsBaseModule = true)
    (hwe : src.containsWebhookEvent = true) :
    ∀ strict : Bool, ∃ ws,
      webhookImplStage strict (some m) (some src) = .ok ws ∧
      "Warning: Event \x27pull_request\x27 declared in metadata but no handler registered in initialize()"
        ∈ ws := by
  intro strict
  have hne : m.isEmpty = false := by
    cases m with
    | nil => simp [getStrList?, wlookup] at hev
    | cons a t => rfl
  have hrne : src.registerCalls.isEmpty = false := by
    rcases h : src.registerCalls with _ | _
    · exact absurd h hregne
    · rfl
  have hvwi : ValidateWebhookImplementation (some m) (some src) =
      vwiTail m src (missingRegWarnings events src.registerCalls) := by
    simp only [ValidateWebhookImplementation, hne, hbase, hrne, hev]
    rfl
  have hmem : "Warning: Event \x27pull_request\x27 declared in metadata but no handler registered in initialize()"
      ∈ missingRegWarnings events src.registerCalls := by
    unfold missingRegWarnings
    rw [List.mem_map]
    refine ⟨"pull_request", ?_, rfl⟩
    rw [List.mem_filter]
    exact ⟨hpr, by simpa using hreg⟩
  have htail : ∃ w3, vwiTail m src (missingRegWarnings events src.registerCalls)
      = .ok (missingRegWarnings events src.registerCalls ++
          (if !src.hasHandlerEventMethod then
            ["Warning: No webhook event handler methods found (e.g., handleIssuesEvent)"]
          else []) ++ w3) := by
    unfold vwiTail
    rw [hwe]
    simp only [Bool.not_true, Bool.false_eq_true, if_false, hev]
    exact ⟨_, rfl⟩
  rcases htail with ⟨w3, htail⟩
  refine ⟨missingRegWarnings events src.registerCalls ++
      (if !src.hasHandlerEventMethod then
        ["Warning: No webhook event handler methods found (e.g., handleIssuesEvent)"]
      else []) ++ w3, ?_, ?_⟩
  · unfold webhookImplStage
    rw [hvwi, htail]
  · exact List.mem_append_left _ (List.mem_append_left _ hmem)

/-- Witness for C4 at a concrete webhook declaration, in strict mode. -/
theorem webhook_missing_registration_warns_witness :
    ∃ ws, webhookImplStage true (some issuesPrWebhooks)
        (some issuesOnlyImpl) = .ok ws ∧
      "Warning: Event \x27pull_request\x27 declared in metadata but no handler registered in initialize()"
        ∈ ws :=
  webhook_missing_registration_warns issuesPrWebhooks issuesOnlyImpl
    ["issues", "pull_request"] rfl (by decide) (by decide) (by decide)
    rfl rfl true

/-- **C9**: a non-nil, non-empty webhooks map lacking an `events` key makes
`ValidateWebhookImplementation` hit the unchecked `webhooks["events"].([]string)`
assertion and panic; the state is reachable in non-strict mode because the
preceding configuration check's error (`webhook events array is required`)
is downgraded to a printed warning, whereas strict mode aborts first. -/
theorem webhook_missing_events_panics :
    ValidateWebhookImplementation (some noEventsWebhooks)
      (some noRegisterImpl) = .panicked ∧
    (ValidateWebhookConfiguration (some noEventsWebhooks)).2 =
      .error "webhook events array is required and cannot be empty" ∧
    webhookChecksBlock noEventsWebhooks noEventsSource noStrictOpts =
      .panicked ∧
    webhookChecksBlock noEventsWebhooks noEventsSource defaultOpts =
      .failed "webhook events array is required and cannot be empty" :=
  ⟨by decide, by decide, by decide, by decide⟩

/-- **C5 counterexample**: an extracted data schema can carry an invalid
`dataType` (it is read from an arbitrary string literal); `ValidateDataSchema`
then fails on the data type *before* reaching the field loop, so the error
names neither the offending field `count` nor its type `weird`. -/
theorem schema_validation_counterexample :
    (ValidateDataSchema badTypeSchema).2 = .error "invalid data type: custom" ∧
    (badTypeSchema.Schema.map
      (fun s => s.Fields.any (fun f => !(validFieldTypes.contains f.Typ)))) =
      some true ∧
    strContains "invalid data type: custom" "count" = false ∧
    strContains "invalid data type: custom" "weird" = false :=
  ⟨by decide, by decide, by decide, by decide⟩

/-- **C5** (amended): for every exposed data schema whose `dataType` is empty
or valid, containing a field with a type outside the fixed enum,
`ValidateDataSchema` returns an error naming the first such field's name and
type; and (claim unchanged) `ValidatePermissions` always returns `nil`, only
printing a warning for each value outside the whitelist. -/
theorem schema_field_type_fatal_permissions_warn
    (schema : ModuleDataSchema) (d : DataSchemaDefinition)
    (f : DataFieldDefinition)
    (hexp : schema.ExposeData = true)
    (hdt : schema.DataType = "" ∨ validDataTypes.contains schema.DataType = true)
    (hs : schema.Schema = some d)
    (hf : d.Fields.find? (fun f => !(validFieldTypes.contains f.Typ)) = some f)
    (perms : List String) (p : String)
    (hp : p ∈ perms) (hpu : validPermissions.contains p = false) :
    (ValidateDataSchema schema).2 =
      .error ("invalid field type \x27" ++ f.Typ ++ "\x27 for field \x27" ++
        f.Name ++ "\x27") ∧
    (ValidatePermissions perms).2 = .ok () ∧
    ("Warning: Unknown permission \x27" ++ p ++ "\x27")
      ∈ (ValidatePermissions perms).1 := by
  refine ⟨?_, rfl, ?_⟩
  · have hdt2 : (schema.DataType ≠ "" &&
        !(validDataTypes.contains schema.DataType)) = false := by
      rcases hdt with h | h
      · simp [h]
      · rw [h]
        simp
    simp only [ValidateDataSchema, hexp, hdt2, hs, hf]
    simp
  · unfold ValidatePermissions
    simp only
    rw [List.mem_map]
    refine ⟨p, ?_, rfl⟩
    rw [List.mem_filter]
    exact ⟨hp, by simpa using hpu⟩

/-- Witness for C5 at a concrete schema and permission list. -/
theorem schema_field_type_fatal_permissions_warn_witness :
    (ValidateDataSchema { badTypeSchema with DataType := "analytics" }).2 =
      .error "invalid field type \x27weird\x27 for field \x27count\x27" ∧
    (ValidatePermissions ["storage:read", "net:all"]).2 = .ok () ∧
    "Warning: Unknown permission \x27net:all\x27"
      ∈ (ValidatePermissions ["storage:read", "net:all"]).1 :=
  schema_field_type_fatal_permissions_warn
    { badTypeSchema with DataType := "analytics" }
    { Fields := [{ Name := "count", Typ := "weird", Description := "",
                   Nullable := false, Example := "" }]
      Capabilities := [] }
    { Name := "count", Typ := "weird", Description := "", Nullable := false,
      Example := "" }
    rfl (Or.inr (by decide)) rfl (by decide) ["storage:read", "net:all"]
    "net:all" (by decide) (by decide)

/-- **C6**: a minimal descriptor (id 1, name `X`, version `1.0.0`, empty
steps/providers/interfaces/permissions, nil webhooks, no exposed data
schema, and the optional display fields empty) yields a manifest with
`requires_setup = false` and none of the optional keys. -/
theorem minimal_manifest_no_optional_sections
    (c : DashspaceConfig) (checksum timestamp : String)
    (hid : c.ID = 1) (hname : c.Name = "X") (hver : c.Version = "1.0.0")
    (hicon : c.Icon = "") (hcat : c.Category = "") (htags : c.Tags = [])
    (hrs : c.RequiresSetup = computeRequiresSetup [])
    (ds : Option ModuleDataSchema)
    (hds : ∀ d, ds = some d → d.ExposeData = false) :
    mlookup (BuildManifest c [] [] [] [] none ds checksum timestamp)
        "requires_setup" = some (.bool false) ∧
    ∀ k ∈ ["icon", "category", "tags", "configuration_steps", "providers",
           "interfaces", "permissions", "webhooks", "data_schema"],
      mlookup (BuildManifest c [] [] [] [] none ds checksum timestamp)
        k = none := by
  have hrs2 : c.RequiresSetup = false := by
    rw [hrs]
    rfl
  have hmani : BuildManifest c [] [] [] [] none ds checksum timestamp =
      [("id", .int c.ID), ("slug", .str c.Slug), ("name", .str c.Name),
       ("version", .str c.Version), ("description", .str c.Description),
       ("author", .str c.Author), ("entry", .str c.Entry),
       ("checksum", .str checksum), ("timestamp", .str timestamp),
       ("requires_setup", .bool false),
       ("build_info", .buildInfo "1.0.11" timestamp true)] := by
    unfold BuildManifest
    rcases ds with _ | d
    · simp [hicon, hcat, htags, hrs2]
    · have hexp : d.ExposeData = false := hds d rfl
      simp [hicon, hcat, htags, hrs2, hexp]
  rw [hmani]
  constructor
  · simp [mlookup, List.find?]
  · intro k hk
    fin_cases hk <;> simp [mlookup, List.find?]

/-- Witness for C6 at a concrete minimal descriptor. -/
theorem minimal_manifest_no_optional_sections_witness :
    mlookup (BuildManifest
        { DashspaceConfig.zero with
            ID := 1
            Name := "X"
            Version := "1.0.0"
            Slug := "x"
            Entry := "bundle.js" }
        [] [] [] [] none (some noDataSchema) "cafe" "t0")
      "requires_setup" = some (.bool false) ∧
    ∀ k ∈ ["icon", "category", "tags", "configuration_steps", "providers",
           "interfaces", "permissions", "webhooks", "data_schema"],
      mlookup (BuildManifest
          { DashspaceConfig.zero with
              ID := 1
              Name := "X"
              Version := "1.0.0"
              Slug := "x"
              Entry := "bundle.js" }
          [] [] [] [] none (some noDataSchema) "cafe" "t0") k = none :=
  minimal_manifest_no_optional_sections _ "cafe" "t0" rfl rfl rfl rfl rfl rfl
    rfl (some noDataSchema) (fun d hd => by cases hd; rfl)

/-- **C8**: the wrapped bundle and its SHA-256 checksum are a deterministic
function of the compiled code, the polyfill content and the module id: two
invocations of `Generate` on equal inputs return identical checksums. -/
theorem generate_checksum_deterministic
    (code1 code2 poly1 poly2 : String) (id1 id2 : Nat)
    (hc : code1 = code2) (hp : poly1 = poly2) (hi : id1 = id2) :
    (Generate code1 poly1 id1).2 = (Generate code2 poly2 id2).2 := by
  subst hc
  subst hp
  subst hi
  rfl

/-- Witness for C8 at concrete inputs. -/
theorem generate_checksum_deterministic_witness :
    ("x" : String) = "x" ∧ ("" : String) = "" ∧ (1 : Nat) = 1 ∧
    (Generate "x" "" 1).2 = (Generate "x" "" 1).2 :=
  ⟨rfl, rfl, rfl,
    generate_checksum_deterministic "x" "x" "" "" 1 1 rfl rfl rfl⟩

/-- **C10**: `ExtractProviders` yields an entry only for objects whose
provider has the enum form `Provider.NAME`; an object with a plain string
provider is silently omitted (removing it does not change the result, and
nothing else is reported), whereas `ExtractWebhooks` accepts both the string
form and the enum form for its provider. -/
theorem providers_enum_form_only :
    (∀ pre post o, o.providerEnum = none →
      ExtractProviders (pre ++ o :: post) = ExtractProviders (pre ++ post)) ∧
    (∀ o n, o.providerEnum = some n →
      ExtractProviders [o] = [mkProviderEntry o n]) ∧
    (∀ b s, b.provider = some (ProviderForm.lit s) → s ≠ "" →
      ∃ m, ExtractWebhooks (some b) = some m ∧
        getString? m "provider" = some s) ∧
    (∀ b n, b.provider = some (ProviderForm.enum n) → asciiToLower n ≠ "" →
      ∃ m, ExtractWebhooks (some b) = some m ∧
        getString? m "provider" = some (asciiToLower n)) := by
  refine ⟨?_, ?_, ?_, ?_⟩
  · intro pre post o h
    simp [ExtractProviders, h]
  · intro o n h
    simp [ExtractProviders, h]
  · intro b s hprov hs
    rcases b with ⟨prov, evs, cfs⟩
    simp only at hprov
    subst hprov
    simp only [ExtractWebhooks, webhookProviderValue]
    rw [if_pos hs]
    rcases evs with _ | l1 <;> rcases cfs with _ | l2 <;>
      simp only [List.nil_append, List.singleton_append] <;>
      split_ifs <;> first
        | exact ⟨_, rfl, rfl⟩
        | simp_all
  · intro b n hprov hn
    rcases b with ⟨prov, evs, cfs⟩
    simp only at hprov
    subst hprov
    simp only [ExtractWebhooks, webhookProviderValue]
    rw [if_pos hn]
    rcases evs with _ | l1 <;> rcases cfs with _ | l2 <;>
      simp only [List.nil_append, List.singleton_append] <;>
      split_ifs <;> first
        | exact ⟨_, rfl, rfl⟩
        | simp_all

/-- Witness for C10: a string-form provider object next to an enum one. -/
theorem providers_enum_form_only_witness :
    ExtractProviders [enumProviderObj, litProviderObj] =
      ExtractProviders [enumProviderObj] ∧
    ∃ m, ExtractWebhooks (some litProviderWebhookBlock) = some m ∧
      getString? m "provider" = some "github" :=
  ⟨providers_enum_form_only.1 [enumProviderObj] [] litProviderObj rfl,
   providers_enum_form_only.2.2.1 litProviderWebhookBlock "github" rfl
     (by decide)⟩

/-! ### C7 lemma layer: generic scanning lemmas -/

/-- `goFindAll` on the empty list. -/
theorem goFindAll_nil (m : List Char → Option (α × Nat)) (fuel pos : Nat) :
    goFindAll m fuel [] pos = [] := by
  cases fuel <;> rfl

/-- The result of `goFindAll` does not depend on the fuel, as long as the
fuel bounds the length. -/
theorem goFindAll_fuel (m : List Char → Option (α × Nat)) :
    ∀ (f1 : Nat) (s : List Char) (pos f2 : Nat), s.length ≤ f1 →
      s.length ≤ f2 → goFindAll m f1 s pos = goFindAll m f2 s pos := by
  intro f1
  induction f1 with
  | zero =>
    intro s pos f2 h1 _
    have : s = [] := List.length_eq_zero.mp (Nat.le_zero.mp h1)
    subst this
    rw [goFindAll_nil, goFindAll_nil]
  | succ f ih =>
    intro s pos f2 h1 h2
    cases s with
    | nil => rw [goFindAll_nil, goFindAll_nil]
    | cons c t =>
      cases f2 with
      | zero => simp at h2
      | succ f2' =>
        simp only [goFindAll]
        cases hm : m (c :: t) with
        | none =>
          exact ih t (pos + 1) f2'
            (Nat.le_of_succ_le_succ h1) (Nat.le_of_succ_le_succ h2)
        | some al =>
          obtain ⟨a, len⟩ := al
          have hle : (t.drop (max len 1 - 1)).length ≤ t.length := by
            rw [List.length_drop]
            omega
          have h1x : t.length + 1 ≤ f + 1 := by simpa using h1
          have h2x : t.length + 1 ≤ f2' + 1 := by simpa using h2
          simp only
          congr 1
          refine ih _ (pos + max len 1) f2' ?_ ?_
          · omega
          · omega

/-- Skipping a segment on which the matcher never fires. -/
theorem goFindAll_skip (m : List Char → Option (α × Nat)) :
    ∀ (u v : List Char) (pos fuel : Nat), (u ++ v).length ≤ fuel →
      (∀ p < u.length, m (u.drop p ++ v) = none) →
      goFindAll m fuel (u ++ v) pos =
        goFindAll m (fuel - u.length) v (pos + u.length) := by
  intro u
  induction u with
  | nil =>
    intro v pos fuel _ _
    simp
  | cons c u' ih =>
    intro v pos fuel hf hnone
    cases fuel with
    | zero => simp at hf
    | succ f =>
      have h0 : m (c :: (u' ++ v)) = none := by
        have := hnone 0 (Nat.succ_pos _)
        simpa using this
      simp only [List.cons_append, goFindAll, List.append_eq]
      rw [h0]
      simp only [List.cons_append, List.length_cons] at hf
      have hf2 : (u' ++ v).length ≤ f := Nat.le_of_succ_le_succ hf
      rw [ih v (pos + 1) f hf2
        (fun p hp => by
          have := hnone (p + 1) (by simpa using Nat.succ_lt_succ hp)
          simpa using this)]
      have e1 : f + 1 - (u'.length + 1) = f - u'.length := by omega
      have e2 : pos + (u'.length + 1) = pos + 1 + u'.length := by omega
      simp only [List.length_cons, e1, e2]

/-- A match at the head of the list. -/
theorem goFindAll_match (m : List Char → Option (α × Nat))
    (c : Char) (t : List Char) (pos fuel : Nat) (a : α) (len : Nat)
    (hm : m (c :: t) = some (a, len)) (hlen : 1 ≤ len)
    (hf : (c :: t).length ≤ fuel) :
    goFindAll m fuel (c :: t) pos =
      (pos, a) :: goFindAll m (fuel - 1) ((c :: t).drop len) (pos + len) := by
  cases fuel with
  | zero => simp at hf
  | succ f =>
    simp only [goFindAll, hm]
    have hk : max len 1 = len := by omega
    rw [hk]
    have : t.drop (len - 1) = (c :: t).drop len := by
      cases len with
      | zero => omega
      | succ l => simp
    rw [this]
    simp

/-- Skipping a segment for `scanFirst`. -/
theorem scanFirst_skip (m : List Char → Option α) :
    ∀ (u v : List Char), (∀ p < u.length, m (u.drop p ++ v) = none) →
      scanFirst m (u ++ v) = scanFirst m v := by
  intro u
  induction u with
  | nil => intro v _; rfl
  | cons c u' ih =>
    intro v hnone
    have h0 : m (c :: (u' ++ v)) = none := by
      have := hnone 0 (Nat.succ_pos _)
      simpa using this
    simp only [List.cons_append, scanFirst, List.append_eq]
    rw [h0]
    exact ih v (fun p hp => by
      have := hnone (p + 1) (by simpa using Nat.succ_lt_succ hp)
      simpa using this)

/-- Brace counting skips characters that are not braces. -/
theorem braceCloseLoop_skip :
    ∀ (u v : List Char) (d : Int) (j : Nat),
      (∀ c ∈ u, c ≠ '\x7b' ∧ c ≠ '\x7d') →
      braceCloseLoop (u ++ v) d j = braceCloseLoop v d (j + u.length) := by
  intro u
  induction u with
  | nil => intro v d j _; simp
  | cons c u' ih =>
    intro v d j hc
    have h := hc c (List.mem_cons_self c u')
    simp only [List.cons_append, braceCloseLoop, List.append_eq,
      if_neg h.1, if_neg h.2]
    rw [ih v d (j + 1) (fun x hx => hc x (List.mem_cons_of_mem c hx))]
    have e2 : j + (u'.length + 1) = j + 1 + u'.length := by omega
    simp only [List.length_cons, e2]

/-- Brace counting steps over a matched `{}` pair when the current depth is
positive. -/
theorem braceCloseLoop_pair (v : List Char) (d : Int) (j : Nat)
    (hd : d ≠ 0) :
    braceCloseLoop ('\x7b' :: '\x7d' :: v) d j =
      braceCloseLoop v d (j + 2) := by
  have hd1 : d + 1 - 1 ≠ 0 := by omega
  simp only [braceCloseLoop]
  simp [hd1]
  intro h
  exact absurd h hd

/-- Bracket counting skips characters that are not brackets. -/
theorem bracketCloseLoop_skip :
    ∀ (u v : List Char) (d : Int) (j : Nat),
      (∀ c ∈ u, c ≠ '[' ∧ c ≠ ']') →
      bracketCloseLoop (u ++ v) d j = bracketCloseLoop v d (j + u.length) := by
  intro u
  induction u with
  | nil => intro v d j _; simp
  | cons c u' ih =>
    intro v d j hc
    have h := hc c (List.mem_cons_self c u')
    simp only [List.cons_append, bracketCloseLoop, List.append_eq,
      if_neg h.1, if_neg h.2]
    rw [ih v d (j + 1) (fun x hx => hc x (List.mem_cons_of_mem c hx))]
    have e2 : j + (u'.length + 1) = j + 1 + u'.length := by omega
    simp only [List.length_cons, e2]

/-- Shifting all indices shifts the slicing pairs. -/
theorem pairsWithNext_shift :
    ∀ (l : List Nat) (d len : Nat),
      pairsWithNext (l.map (· + d)) (len + d) =
        (pairsWithNext l len).map (fun p => (p.1 + d, p.2 + d)) := by
  intro l
  induction l with
  | nil => intro d len; rfl
  | cons a rest ih =>
    intro d len
    cases rest with
    | nil => rfl
    | cons b rest' =>
      simp only [List.map_cons, pairsWithNext]
      rw [← List.map_cons (· + d) b rest']
      rw [ih d len]

/-- Slicing after a common prefix. -/
theorem sliceBetween_shift (u w : List Char) (a b : Nat) :
    sliceBetween (u ++ w) (a + u.length) (b + u.length) =
      sliceBetween w a b := by
  unfold sliceBetween
  rw [Nat.add_comm b u.length, List.take_append_eq_append_take]
  have h1 : u.take (u.length + b) = u := List.take_of_length_le (by omega)
  rw [h1]
  have h2 : u.length + b - u.length = b := by omega
  rw [h2]
  rw [List.drop_append_eq_append_drop]
  have h3 : u.drop (a + u.length) = [] := by
    apply List.drop_eq_nil_of_le
    omega
  rw [h3]
  have h4 : a + u.length - u.length = a := by omega
  rw [h4]
  simp

/-- Slicing an exact prefix. -/
theorem sliceBetween_left (x y : List Char) :
    sliceBetween (x ++ y) 0 x.length = x := by
  unfold sliceBetween
  simp [List.take_append_eq_append_take]

/-! ### C7 lemma layer: the rendered family -/

/-- One field literal, as an append decomposition around its braces. -/
theorem fieldLit_decomp :
    ∀ w : List Char, fieldLit ++ w =
      "new TextField(".toList ++
        ('\x7b' :: '\x7d' :: (')' :: w)) := fun _ => rfl

theorem renderFields_zero : renderFields 0 = [] := rfl

theorem renderFields_one : renderFields 1 = fieldLit := rfl

theorem renderFields_succ (k : Nat) (hk : 1 ≤ k) :
    renderFields (k + 1) = fieldLit ++ (", ".toList ++ renderFields k) := by
  cases k with
  | zero => omega
  | succ k' =>
    rfl

theorem fieldLit_length : fieldLit.length = 17 := rfl

theorem renderFields_one_length : (renderFields 1).length = 17 := rfl

theorem renderFields_succ_length (k : Nat) (hk : 1 ≤ k) :
    (renderFields (k + 1)).length = 19 + (renderFields k).length := by
  rw [renderFields_succ k hk]
  simp [fieldLit]
  omega

theorem renderFields_no_brackets (k : Nat) :
    ∀ c ∈ renderFields k, c ≠ '[' ∧ c ≠ ']' := by
  induction k with
  | zero =>
    intro c hc
    simp [renderFields_zero] at hc
  | succ k ih =>
    rcases Nat.eq_zero_or_pos k with h0 | hpos
    · subst h0
      intro c hc
      rw [renderFields_one] at hc
      fin_cases hc <;> exact ⟨by decide, by decide⟩
    · intro c hc
      rw [renderFields_succ k hpos] at hc
      rcases List.mem_append.mp hc with h | h
      · fin_cases h <;> exact ⟨by decide, by decide⟩
      · rcases List.mem_append.mp h with h2 | h2
        · fin_cases h2 <;> exact ⟨by decide, by decide⟩
        · exact ih c h2

/-- `scanFirst` skips an entire rendered field array when the matcher fires
nowhere in a field literal or separator. -/
theorem scanFirst_skip_fields (m : List Char → Option α)
    (hU : ∀ p, p < 17 → ∀ v, m (fieldLit.drop p ++ v) = none)
    (hS : ∀ p, p < 2 → ∀ v, m ((", ".toList).drop p ++ v) = none) :
    ∀ (k : Nat) (v : List Char),
      scanFirst m (renderFields k ++ v) = scanFirst m v := by
  intro k
  induction k with
  | zero =>
    intro v
    rw [renderFields_zero]
    rfl
  | succ k ih =>
    rcases Nat.eq_zero_or_pos k with h0 | hpos
    · subst h0
      intro v
      rw [renderFields_one]
      exact scanFirst_skip m fieldLit v (fun p hp => hU p hp v)
    · intro v
      rw [renderFields_succ k hpos, List.append_assoc, List.append_assoc]
      rw [scanFirst_skip m fieldLit _ (fun p hp => hU p hp _)]
      rw [scanFirst_skip m (", ".toList) _ (fun p hp => hS p hp _)]
      exact ih v

/-- `goFindAll` skips an entire rendered field array when the matcher fires
nowhere in a field literal or separator. -/
theorem goFindAll_skip_fields (m : List Char → Option (α × Nat))
    (hU : ∀ p, p < 17 → ∀ v, m (fieldLit.drop p ++ v) = none)
    (hS : ∀ p, p < 2 → ∀ v, m ((", ".toList).drop p ++ v) = none) :
    ∀ (k : Nat) (v : List Char) (pos fuel : Nat),
      (renderFields k ++ v).length ≤ fuel →
      goFindAll m fuel (renderFields k ++ v) pos =
        goFindAll m (fuel - (renderFields k).length) v
          (pos + (renderFields k).length) := by
  intro k
  induction k with
  | zero =>
    intro v pos fuel _
    rw [renderFields_zero]
    simp
  | succ k ih =>
    rcases Nat.eq_zero_or_pos k with h0 | hpos
    · subst h0
      intro v pos fuel hf
      rw [renderFields_one] at hf ⊢
      exact goFindAll_skip m fieldLit v pos fuel hf (fun p hp => hU p hp v)
    · intro v pos fuel hf
      rw [renderFields_succ k hpos] at hf ⊢
      rw [List.append_assoc] at hf ⊢
      have hlen : (fieldLit ++ ((", ".toList ++ renderFields k) ++ v)).length
          = 19 + (renderFields k).length + v.length := by
        simp [fieldLit]
        omega
      rw [List.append_assoc] at hf ⊢
      rw [goFindAll_skip m fieldLit _ pos fuel (by omega)
        (fun p hp => hU p hp _)]
      rw [goFindAll_skip m (", ".toList) _ _ _
        (by simp [fieldLit] at hf ⊢; omega) (fun p hp => hS p hp _)]
      rw [ih v _ _ (by simp [fieldLit] at hf ⊢; omega)]
      have e1 : fuel - fieldLit.length - (", ".toList).length -
          (renderFields k).length =
          fuel - (fieldLit ++ (", ".toList ++ renderFields k)).length := by
        simp [fieldLit]
        omega
      have e2 : pos + fieldLit.length + (", ".toList).length +
          (renderFields k).length =
          pos + (fieldLit ++ (", ".toList ++ renderFields k)).length := by
        simp [fieldLit]
        omega
      rw [e1, e2]

/-- Brace counting skips an entire rendered field array (its braces come in
matched pairs) when the current depth is nonzero. -/
theorem braceCloseLoop_skip_fields :
    ∀ (k : Nat) (v : List Char) (d : Int) (j : Nat), d ≠ 0 →
      braceCloseLoop (renderFields k ++ v) d j =
        braceCloseLoop v d (j + (renderFields k).length) := by
  intro k
  induction k with
  | zero =>
    intro v d j _
    rw [renderFields_zero]
    simp
  | succ k ih =>
    have hunit : ∀ (w : List Char) (d : Int) (j : Nat), d ≠ 0 →
        braceCloseLoop (fieldLit ++ w) d j =
          braceCloseLoop w d (j + 17) := by
      intro w d j hd
      rw [fieldLit_decomp]
      rw [braceCloseLoop_skip "new TextField(".toList _ d j (by decide)]
      rw [braceCloseLoop_pair _ d _ hd]
      have : braceCloseLoop (')' :: w) d
          (j + ("new TextField(".toList).length + 2) =
          braceCloseLoop w d (j + ("new TextField(".toList).length + 2 + 1) := by
        rw [show (')' :: w) = [')'] ++ w from rfl]
        rw [braceCloseLoop_skip [')'] w d _ (by decide)]
        rfl
      rw [this]
      congr 1
    rcases Nat.eq_zero_or_pos k with h0 | hpos
    · subst h0
      intro v d j hd
      rw [renderFields_one]
      rw [hunit v d j hd, fieldLit_length]
    · intro v d j hd
      rw [renderFields_succ k hpos, List.append_assoc, List.append_assoc]
      rw [hunit _ d j hd]
      rw [braceCloseLoop_skip (", ".toList) _ d _ (by decide)]
      rw [ih v d _ hd]
      congr 1
      simp only [List.length_append, fieldLit_length]
      have h2 : (", ".toList).length = 2 := rfl
      omega

/-! ### C7 lemma layer: matcher evaluations on the rendered family -/

/-- The step matcher succeeds with length 22 at the head of a step literal. -/
theorem matchStepStart_renderStep (k : Nat) (v : List Char) :
    matchStepStart (renderStep k ++ v) = some 22 := rfl

/-- The step matcher, through `stepMatcher`. -/
theorem stepMatcher_renderStep (k : Nat) (v : List Char) :
    stepMatcher (renderStep k ++ v) = some ((), 22) := rfl

/-- The field matcher succeeds at the head of a field literal: capture
`TextField`, match length 14. -/
theorem matchFieldStart_fieldLit (v : List Char) :
    matchFieldStart (fieldLit ++ v) = some ("TextField".toList, 14) := rfl

/-- Dropping the matched 14 characters of a field literal leaves `{})`. -/
theorem fieldLit_drop14 (v : List Char) :
    (fieldLit ++ v).drop 14 = "\x7b\x7d)".toList ++ v := rfl

/-- The step matcher never fires inside a field literal. -/
theorem stepMatcher_none_fieldLit :
    ∀ p, p < 17 → ∀ v : List Char,
      stepMatcher (fieldLit.drop p ++ v) = none := by
  intro p hp v
  interval_cases p <;> rfl

/-- The step matcher never fires inside the `, ` separator. -/
theorem stepMatcher_none_sep :
    ∀ p, p < 2 → ∀ v : List Char,
      stepMatcher ((", ".toList).drop p ++ v) = none := by
  intro p hp v
  interval_cases p <;> rfl

/-- The step matcher never fires inside `{fields: [`. -/
theorem stepMatcher_none_pre :
    ∀ p, p < 10 → ∀ v : List Char,
      stepMatcher (("\x7bfields: [".toList).drop p ++ v) = none := by
  intro p hp v
  interval_cases p <;> rfl

/-- The step matcher never fires inside `]})`. -/
theorem stepMatcher_none_close :
    ∀ p, p < 3 → ∀ v : List Char,
      stepMatcher (("]\x7d)".toList).drop p ++ v) = none := by
  intro p hp v
  interval_cases p <;> rfl

/-- The field matcher never fires inside `{})`. -/
theorem matchFieldStart_none_tail :
    ∀ p, p < 3 → ∀ v : List Char,
      matchFieldStart (("\x7b\x7d)".toList).drop p ++ v) = none := by
  intro p hp v
  interval_cases p <;> rfl

/-- The field matcher never fires inside the `, ` separator. -/
theorem matchFieldStart_none_sep :
    ∀ p, p < 2 → ∀ v : List Char,
      matchFieldStart ((", ".toList).drop p ++ v) = none := by
  intro p hp v
  interval_cases p <;> rfl

/-- None of the five step-level key matchers fires inside a field literal. -/
theorem keys_none_fieldLit :
    ∀ p, p < 17 → ∀ v : List Char,
      matchKeyString "id".toList (fieldLit.drop p ++ v) = none ∧
      matchKeyString "title".toList (fieldLit.drop p ++ v) = none ∧
      matchKeyString "description".toList (fieldLit.drop p ++ v) = none ∧
      matchKeyNumber "order".toList (fieldLit.drop p ++ v) = none ∧
      matchKeyBool "optional".toList (fieldLit.drop p ++ v) = none := by
  intro p hp v
  interval_cases p <;> exact ⟨rfl, rfl, rfl, rfl, rfl⟩

/-- None of the five step-level key matchers fires inside `, `. -/
theorem keys_none_sep :
    ∀ p, p < 2 → ∀ v : List Char,
      matchKeyString "id".toList ((", ".toList).drop p ++ v) = none ∧
      matchKeyString "title".toList ((", ".toList).drop p ++ v) = none ∧
      matchKeyString "description".toList ((", ".toList).drop p ++ v) = none ∧
      matchKeyNumber "order".toList ((", ".toList).drop p ++ v) = none ∧
      matchKeyBool "optional".toList ((", ".toList).drop p ++ v) = none := by
  intro p hp v
  interval_cases p <;> exact ⟨rfl, rfl, rfl, rfl, rfl⟩

/-- None of the five step-level key matchers fires inside `fields: [`. -/
theorem keys_none_pre :
    ∀ p, p < 9 → ∀ v : List Char,
      matchKeyString "id".toList (("fields: [".toList).drop p ++ v) = none ∧
      matchKeyString "title".toList (("fields: [".toList).drop p ++ v) = none ∧
      matchKeyString "description".toList
        (("fields: [".toList).drop p ++ v) = none ∧
      matchKeyNumber "order".toList (("fields: [".toList).drop p ++ v) = none ∧
      matchKeyBool "optional".toList
        (("fields: [".toList).drop p ++ v) = none := by
  intro p hp v
  interval_cases p <;> exact ⟨rfl, rfl, rfl, rfl, rfl⟩

/-- `goFindAll` with the field matcher consumes one field literal: one match
at its start, then the scan resumes 17 characters later. -/
theorem goFindAll_field_one (v : List Char) (pos fuel : Nat)
    (hf : (fieldLit ++ v).length ≤ fuel) :
    goFindAll matchFieldStart fuel (fieldLit ++ v) pos =
      (pos, "TextField".toList) ::
        goFindAll matchFieldStart (fuel - 17) v (pos + 17) := by
  have hf17 : 17 + v.length ≤ fuel := by
    rw [List.length_append, fieldLit_length] at hf
    omega
  have hf' : ('n' :: ("ew TextField(\x7b\x7d)".toList ++ v)).length ≤ fuel := hf
  have hc : fieldLit ++ v = 'n' :: ("ew TextField(\x7b\x7d)".toList ++ v) := rfl
  rw [hc]
  rw [goFindAll_match matchFieldStart 'n' ("ew TextField(\x7b\x7d)".toList ++ v)
    pos fuel ("TextField".toList) 14 (matchFieldStart_fieldLit v)
    (by omega) hf']
  rw [show (('n' :: ("ew TextField(\x7b\x7d)".toList ++ v)).drop 14) =
    "\x7b\x7d)".toList ++ v from rfl]
  have h3 : ("\x7b\x7d)".toList).length = 3 := rfl
  have hlen2 : ("\x7b\x7d)".toList ++ v).length ≤ fuel - 1 := by
    rw [List.length_append, h3]
    omega
  rw [goFindAll_skip matchFieldStart ("\x7b\x7d)".toList) v (pos + 14)
    (fuel - 1) hlen2 (fun p hp => matchFieldStart_none_tail p hp v)]
  rw [h3]
  have e1 : pos + 14 + 3 = pos + 17 := by omega
  rw [e1]
  exact congrArg (List.cons (pos, "TextField".toList))
    (goFindAll_fuel matchFieldStart (fuel - 1 - 3) v (pos + 17) (fuel - 17)
      (by omega) (by omega))

/-- The field starts of a rendered field array: an arithmetic progression of
stride 19 with capture `TextField`. -/
theorem fieldStarts_renderFields :
    ∀ (k : Nat), 1 ≤ k → ∀ (pos fuel : Nat),
      (renderFields k).length ≤ fuel →
      goFindAll matchFieldStart fuel (renderFields k) pos =
        (List.range k).map (fun i => (pos + 19 * i, "TextField".toList)) := by
  intro k
  induction k with
  | zero => intro h; omega
  | succ k ih =>
    rcases Nat.eq_zero_or_pos k with h0 | hpos
    · subst h0
      intro _ pos fuel hf
      rw [renderFields_one] at hf ⊢
      have h1 := goFindAll_field_one [] pos fuel (by simpa using hf)
      simp only [List.append_nil] at h1
      rw [h1, goFindAll_nil]
      simp [List.range_succ]
    · intro _ pos fuel hf
      rw [renderFields_succ k hpos] at hf ⊢
      have h2 : ((", ".toList) : List Char).length = 2 := rfl
      have hlens : 17 + (2 + (renderFields k).length) ≤ fuel := by
        rw [List.length_append, fieldLit_length, List.length_append, h2] at hf
        omega
      rw [goFindAll_field_one _ pos fuel hf]
      have hlen2 : ((", ".toList) ++ renderFields k).length ≤ fuel - 17 := by
        rw [List.length_append, h2]
        omega
      rw [goFindAll_skip matchFieldStart (", ".toList) _ (pos + 17)
        (fuel - 17) hlen2 (fun p hp => matchFieldStart_none_sep p hp _)]
      rw [ih hpos (pos + 17 + (", ".toList).length) _ (by rw [h2]; omega)]
      have eP : pos + 17 + ((", ".toList) : List Char).length = pos + 19 := by
        rw [h2]
      rw [eP]
      rw [List.range_succ_eq_map, List.map_cons, List.map_map]
      simp only [Nat.mul_zero, Nat.add_zero]
      congr 1
      apply List.map_congr_left
      intro i _
      simp only [Function.comp, Prod.mk.injEq, eq_self_iff_true, and_true]
      omega

/-- The bracket scan of `extractFields` on a step body closes at the `]`
after the rendered field array. -/
theorem bracketClose_stepBody (k : Nat) :
    bracketCloseLoop ((stepBody k).drop 8) 0 8 =
      some (9 + (renderFields k).length) := by
  have h1 : (stepBody k).drop 8 = '[' :: (renderFields k ++ "]".toList) := rfl
  rw [h1]
  have h2 : bracketCloseLoop ('[' :: (renderFields k ++ "]".toList)) 0 8 =
      bracketCloseLoop (renderFields k ++ "]".toList) 1 9 := rfl
  rw [h2]
  rw [bracketCloseLoop_skip (renderFields k) ("]".toList) 1 9
    (renderFields_no_brackets k)]
  rfl

/-- Slicing the fields array body out of a step body gives back the
rendered field array. -/
theorem slice_stepBody (k : Nat) :
    sliceBetween (stepBody k) 9 (9 + (renderFields k).length) =
      renderFields k := by
  rw [Nat.add_comm 9 (renderFields k).length]
  have h : stepBody k = "fields: [".toList ++ (renderFields k ++ "]".toList) := by
    simp [stepBody, List.append_assoc]
  rw [h]
  exact (sliceBetween_shift "fields: [".toList (renderFields k ++ "]".toList)
    0 (renderFields k).length).trans
    (sliceBetween_left (renderFields k) "]".toList)

/-- The field block carved for a non-final field start is a field literal
followed by the separator, and it parses to the text-field map. -/
theorem processFieldBlock_sep :
    processFieldBlock (fieldLit ++ ", ".toList) = some textFieldMap := rfl

/-- The slicing loop of `extractFields` over the rendered starts produces
one text-field map per field literal. -/
theorem fields_pairs :
    ∀ (k : Nat), 1 ≤ k →
      ((pairsWithNext ((List.range k).map (fun i => 19 * i))
          (renderFields k).length).filterMap
        (fun se => processFieldBlock (sliceBetween (renderFields k) se.1 se.2)))
        = List.replicate k textFieldMap := by
  intro k
  induction k with
  | zero => intro h; omega
  | succ k ih =>
    rcases Nat.eq_zero_or_pos k with h0 | hpos
    · subst h0
      intro _
      rfl
    · intro _
      have hr : (List.range (k + 1)).map (fun i => 19 * i) =
          0 :: ((List.range k).map (fun i => 19 * i)).map (fun x => x + 19) := by
        rw [List.range_succ_eq_map, List.map_cons, List.map_map, List.map_map]
        congr 1
      obtain ⟨t, ht⟩ : ∃ t, (List.range k).map (fun i => 19 * i) = 0 :: t := by
        cases k with
        | zero => omega
        | succ j =>
          refine ⟨((List.range j).map Nat.succ).map (fun i => 19 * i), ?_⟩
          rw [List.range_succ_eq_map, List.map_cons]
      rw [hr, ht, List.map_cons]
      have hpair : pairsWithNext
          (0 :: (0 + 19) :: t.map (fun x => x + 19))
          ((renderFields (k + 1)).length) =
          (0, 0 + 19) :: pairsWithNext ((0 + 19) :: t.map (fun x => x + 19))
            ((renderFields (k + 1)).length) := rfl
      rw [hpair]
      rw [← List.map_cons (fun x => x + 19) 0 t, ← ht]
      have hL : (renderFields (k + 1)).length = (renderFields k).length + 19 := by
        rw [renderFields_succ_length k hpos]
        omega
      rw [hL, pairsWithNext_shift]
      have hfirst : processFieldBlock
          (sliceBetween (renderFields (k + 1)) 0 (0 + 19)) = some textFieldMap := by
        have h : renderFields (k + 1) = (fieldLit ++ ", ".toList) ++ renderFields k := by
          rw [renderFields_succ k hpos, List.append_assoc]
        rw [h]
        have h19 : (0 : Nat) + 19 = (fieldLit ++ ", ".toList).length := rfl
        rw [h19]
        rw [sliceBetween_left (fieldLit ++ ", ".toList) (renderFields k)]
        exact processFieldBlock_sep
      rw [List.filterMap_cons]
      simp only [hfirst]
      rw [List.filterMap_map]
      have hfun : ((fun se : Nat × Nat => processFieldBlock
            (sliceBetween (renderFields (k + 1)) se.1 se.2)) ∘
          (fun p : Nat × Nat => (p.1 + 19, p.2 + 19))) =
          (fun p : Nat × Nat => processFieldBlock
            (sliceBetween (renderFields k) p.1 p.2)) := by
        funext p
        simp only [Function.comp]
        have h : renderFields (k + 1) = (fieldLit ++ ", ".toList) ++ renderFields k := by
          rw [renderFields_succ k hpos, List.append_assoc]
        rw [h]
        have h19a : p.1 + 19 = p.1 + (fieldLit ++ ", ".toList).length := rfl
        have h19b : p.2 + 19 = p.2 + (fieldLit ++ ", ".toList).length := rfl
        rw [h19a, h19b, sliceBetween_shift]
      rw [hfun, ih hpos]
      rfl

/-- `extractFields` on the body of a rendered step returns one text-field
map per field literal. -/
theorem extractFields_stepBody (k : Nat) (hk : 1 ≤ k) :
    extractFields (String.mk (stepBody k)) = List.replicate k textFieldMap := by
  have hcs : (String.mk (stepBody k)).toList = stepBody k := rfl
  have hidx1 : idxOfSub (stepBody k) "fields:".toList = some 0 := rfl
  have hidx2 : idxOfSub ((stepBody k).drop 7) ['['] = some 1 := by
    rw [show (stepBody k).drop 7 =
      ' ' :: ('[' :: (renderFields k ++ "]".toList)) from rfl]
    simp [idxOfSub]
  have hstarts := fieldStarts_renderFields k hk 0 ((renderFields k).length + 1)
    (by omega)
  have hmap : ((List.range k).map
      (fun i => (19 * i, "TextField".toList))).map
        (fun x : Nat × List Char => x.1) =
      (List.range k).map (fun i => 19 * i) := by
    rw [List.map_map]
    rfl
  unfold extractFields
  simp only [hcs, hidx1, Nat.zero_add, hidx2, bracketClose_stepBody k,
    slice_stepBody k, hstarts, hmap]
  exact fields_pairs k hk

/-- A key matcher that fires nowhere in the three segments of a step body
finds nothing in the whole body. -/
theorem scanKey_stepBody_none (m : List Char → Option α)
    (hA : ∀ p, p < 9 → ∀ v, m (("fields: [".toList).drop p ++ v) = none)
    (hU : ∀ p, p < 17 → ∀ v, m (fieldLit.drop p ++ v) = none)
    (hS : ∀ p, p < 2 → ∀ v, m ((", ".toList).drop p ++ v) = none)
    (hT : scanFirst m ("]".toList) = none)
    (k : Nat) :
    scanFirst m (stepBody k) = none := by
  have h : stepBody k = "fields: [".toList ++ (renderFields k ++ "]".toList) := by
    simp [stepBody, List.append_assoc]
  rw [h]
  rw [scanFirst_skip m ("fields: [".toList) _ (fun p hp => hA p hp _)]
  rw [scanFirst_skip_fields m hU hS k ("]".toList)]
  exact hT

/-- `parseStep` on the body of a rendered step yields exactly the
`fields` entry. -/
theorem parseStep_stepBody (k : Nat) (hk : 1 ≤ k) :
    parseStep (String.mk (stepBody k)) = renderedStepMap k := by
  have hmk : (String.mk (stepBody k)).toList = stepBody k := rfl
  have hid : extractStringValue (String.mk (stepBody k)) "id" = "" := by
    unfold extractStringValue
    rw [hmk, scanKey_stepBody_none (matchKeyString "id".toList)
      (fun p hp v => (keys_none_pre p hp v).1)
      (fun p hp v => (keys_none_fieldLit p hp v).1)
      (fun p hp v => (keys_none_sep p hp v).1) rfl k]
  have htitle : extractStringValue (String.mk (stepBody k)) "title" = "" := by
    unfold extractStringValue
    rw [hmk, scanKey_stepBody_none (matchKeyString "title".toList)
      (fun p hp v => (keys_none_pre p hp v).2.1)
      (fun p hp v => (keys_none_fieldLit p hp v).2.1)
      (fun p hp v => (keys_none_sep p hp v).2.1) rfl k]
  have hdesc : extractStringValue (String.mk (stepBody k)) "description" = "" := by
    unfold extractStringValue
    rw [hmk, scanKey_stepBody_none (matchKeyString "description".toList)
      (fun p hp v => (keys_none_pre p hp v).2.2.1)
      (fun p hp v => (keys_none_fieldLit p hp v).2.2.1)
      (fun p hp v => (keys_none_sep p hp v).2.2.1) rfl k]
  have hord : extractNumberValue (String.mk (stepBody k)) "order" = none := by
    unfold extractNumberValue
    rw [hmk, scanKey_stepBody_none (matchKeyNumber "order".toList)
      (fun p hp v => (keys_none_pre p hp v).2.2.2.1)
      (fun p hp v => (keys_none_fieldLit p hp v).2.2.2.1)
      (fun p hp v => (keys_none_sep p hp v).2.2.2.1) rfl k]
  have hopt : extractBoolValue (String.mk (stepBody k)) "optional" = false := by
    unfold extractBoolValue
    rw [hmk, scanKey_stepBody_none (matchKeyBool "optional".toList)
      (fun p hp v => (keys_none_pre p hp v).2.2.2.2)
      (fun p hp v => (keys_none_fieldLit p hp v).2.2.2.2)
      (fun p hp v => (keys_none_sep p hp v).2.2.2.2) rfl k]
  have hne : (List.replicate k textFieldMap).isEmpty = false := by
    cases k with
    | zero => omega
    | succ n => rfl
  unfold parseStep
  rw [hid, htitle, hdesc, hord, hopt, extractFields_stepBody k hk]
  simp [hne, renderedStepMap]

/-- `processStepBlock` on a rendered step literal (followed by anything)
carves the step body and parses it to the expected map. -/
theorem processStepBlock_render (k : Nat) (hk : 1 ≤ k) (v : List Char) :
    processStepBlock (renderStep k ++ v) = some (renderedStepMap k) := by
  have hfind : (renderStep k ++ v).findIdx? (· = '\x7b') = some 22 := rfl
  have hgroup : renderStep k ++ v =
      "new ConfigurationStep(\x7b".toList ++
        (stepBody k ++ ("\x7d)".toList ++ v)) := by
    simp [renderStep, List.append_assoc]
  have hdrop : (renderStep k ++ v).drop 22 =
      '\x7b' :: (stepBody k ++ ("\x7d)".toList ++ v)) := by
    rw [hgroup]
    rfl
  have hre : stepBody k ++ ("\x7d)".toList ++ v) =
      "fields: [".toList ++ (renderFields k ++ ("]\x7d)".toList ++ v)) := by
    simp only [stepBody, List.append_assoc]
    rfl
  have htail : ∀ (w : List Char) (j : Nat),
      braceCloseLoop ("]\x7d)".toList ++ w) 1 j = some (j + 1) :=
    fun w j => rfl
  have h9 : (("fields: [".toList : List Char)).length = 9 := rfl
  have hbrace : braceCloseLoop ((renderStep k ++ v).drop 22) 0 22 =
      some (33 + (renderFields k).length) := by
    rw [hdrop]
    rw [show braceCloseLoop
        ('\x7b' :: (stepBody k ++ ("\x7d)".toList ++ v))) 0 22 =
      braceCloseLoop (stepBody k ++ ("\x7d)".toList ++ v)) 1 23 from rfl]
    rw [hre]
    rw [braceCloseLoop_skip ("fields: [".toList) _ 1 23 (by decide)]
    rw [braceCloseLoop_skip_fields k _ 1 _ (by decide)]
    rw [htail]
    congr 1
    rw [h9]
    omega
  have hlen23 : (("new ConfigurationStep(\x7b".toList : List Char)).length = 23 :=
    rfl
  have hsb : (stepBody k).length = 10 + (renderFields k).length := by
    simp [stepBody]
    omega
  have hslice : sliceBetween (renderStep k ++ v) 23
      (33 + (renderFields k).length) = stepBody k := by
    rw [hgroup]
    have e1 : (23 : Nat) =
        0 + ("new ConfigurationStep(\x7b".toList).length := rfl
    have e2 : 33 + (renderFields k).length =
        (stepBody k).length + ("new ConfigurationStep(\x7b".toList).length := by
      rw [hsb, hlen23]
      omega
    rw [e2, e1]
    rw [sliceBetween_shift]
    exact sliceBetween_left (stepBody k) ("\x7d)".toList ++ v)
  unfold processStepBlock scanInnerBlock
  simp only [hfind, hbrace, Nat.reduceAdd, hslice, parseStep_stepBody k hk]
  rfl

/-- Length of a rendered step literal. -/
theorem renderStep_length (k : Nat) :
    (renderStep k).length = 35 + (renderFields k).length := by
  simp [renderStep, stepBody]
  omega

/-- The step scan consumes one rendered step literal: one match at its
start, then the scan resumes after the literal. -/
theorem goFindAll_step_one (k : Nat) (hk : 1 ≤ k) (v : List Char)
    (pos fuel : Nat) (hf : (renderStep k ++ v).length ≤ fuel) :
    goFindAll stepMatcher fuel (renderStep k ++ v) pos =
      (pos, ()) :: goFindAll stepMatcher (fuel - (renderStep k).length) v
        (pos + (renderStep k).length) := by
  have hflen : 35 + (renderFields k).length + v.length ≤ fuel := by
    rw [List.length_append, renderStep_length] at hf
    omega
  have hgroup : renderStep k ++ v = "new ConfigurationStep(\x7b".toList ++
      (stepBody k ++ ("\x7d)".toList ++ v)) := by
    simp [renderStep, List.append_assoc]
  have hcons : renderStep k ++ v = 'n' :: ("ew ConfigurationStep(\x7b".toList ++
      (stepBody k ++ ("\x7d)".toList ++ v))) := by
    rw [hgroup]
    rfl
  have hm : stepMatcher ('n' :: ("ew ConfigurationStep(\x7b".toList ++
      (stepBody k ++ ("\x7d)".toList ++ v)))) = some ((), 22) := by
    rw [← hcons]
    exact stepMatcher_renderStep k v
  have hf' : ('n' :: ("ew ConfigurationStep(\x7b".toList ++
      (stepBody k ++ ("\x7d)".toList ++ v)))).length ≤ fuel := by
    rw [← hcons]
    exact hf
  rw [hcons]
  rw [goFindAll_match stepMatcher 'n' _ pos fuel () 22 hm (by omega) hf']
  have hdrop22 : ('n' :: ("ew ConfigurationStep(\x7b".toList ++
      (stepBody k ++ ("\x7d)".toList ++ v)))).drop 22 =
      "\x7bfields: [".toList ++ (renderFields k ++ ("]\x7d)".toList ++ v)) := by
    simp only [stepBody, List.append_assoc]
    rfl
  rw [hdrop22]
  have h10 : (("\x7bfields: [".toList : List Char)).length = 10 := rfl
  have h3 : (("]\x7d)".toList : List Char)).length = 3 := rfl
  have hlen1 : (("\x7bfields: [".toList : List Char) ++
      (renderFields k ++ ("]\x7d)".toList ++ v))).length ≤ fuel - 1 := by
    simp only [List.length_append, h10, h3]
    omega
  rw [goFindAll_skip stepMatcher ("\x7bfields: [".toList) _ _ _ hlen1
    (fun p hp => stepMatcher_none_pre p hp _)]
  have hlen2 : (renderFields k ++ ("]\x7d)".toList ++ v)).length ≤
      fuel - 1 - ("\x7bfields: [".toList).length := by
    simp only [List.length_append, h10, h3]
    omega
  rw [goFindAll_skip_fields stepMatcher stepMatcher_none_fieldLit
    stepMatcher_none_sep k _ _ _ hlen2]
  have hlen3 : (("]\x7d)".toList : List Char) ++ v).length ≤
      fuel - 1 - ("\x7bfields: [".toList).length - (renderFields k).length := by
    simp only [List.length_append, h10, h3]
    omega
  rw [goFindAll_skip stepMatcher ("]\x7d)".toList) v _ _ hlen3
    (fun p hp => stepMatcher_none_close p hp _)]
  rw [h10, h3]
  have epos : pos + 22 + 10 + (renderFields k).length + 3 =
      pos + (renderStep k).length := by
    rw [renderStep_length]
    omega
  rw [epos]
  exact congrArg (List.cons (pos, ()))
    (goFindAll_fuel stepMatcher _ v _ (fuel - (renderStep k).length)
      (by omega)
      (by rw [renderStep_length]; omega))

/-- The step scan over a whole rendered step array yields exactly the
expected step offsets. -/
theorem goFindAll_renderSteps :
    ∀ (ks : List Nat), (∀ k ∈ ks, 1 ≤ k) → ∀ (pos fuel : Nat),
      (joinChars ", ".toList (ks.map renderStep)).length ≤ fuel →
      goFindAll stepMatcher fuel
          (joinChars ", ".toList (ks.map renderStep)) pos =
        (stepOffsets ks pos).map (fun o => (o, ())) := by
  intro ks
  induction ks with
  | nil =>
    intro _ pos fuel _
    rw [show joinChars ", ".toList (([] : List Nat).map renderStep) = []
      from rfl, goFindAll_nil]
    rfl
  | cons k ks ih =>
    intro hall pos fuel hf
    cases ks with
    | nil =>
      rw [show joinChars ", ".toList (([k] : List Nat).map renderStep) =
        renderStep k from rfl] at hf ⊢
      have h1 := goFindAll_step_one k (hall k (by simp)) [] pos fuel
        (by simpa using hf)
      simp only [List.append_nil] at h1
      rw [h1, goFindAll_nil]
      rfl
    | cons k2 ks2 =>
      have hjoin : joinChars ", ".toList ((k :: k2 :: ks2).map renderStep) =
          renderStep k ++ (", ".toList ++
            joinChars ", ".toList ((k2 :: ks2).map renderStep)) := by
        rw [List.map_cons, List.map_cons]
        rw [show joinChars ", ".toList
          (renderStep k :: renderStep k2 :: ks2.map renderStep) =
          renderStep k ++ ", ".toList ++
            joinChars ", ".toList (renderStep k2 :: ks2.map renderStep)
          from rfl]
        rw [List.append_assoc]
      rw [hjoin] at hf ⊢
      have h2 : ((", ".toList : List Char)).length = 2 := rfl
      rw [List.length_append, List.length_append, h2] at hf
      have hk1 : 1 ≤ k := hall k (by simp)
      rw [goFindAll_step_one k hk1 _ pos fuel
        (by rw [List.length_append, List.length_append, h2]; omega)]
      have hlen1 : ((", ".toList : List Char) ++
          joinChars ", ".toList ((k2 :: ks2).map renderStep)).length ≤
          fuel - (renderStep k).length := by
        rw [List.length_append, h2]
        omega
      rw [goFindAll_skip stepMatcher (", ".toList) _ _ _ hlen1
        (fun p hp => stepMatcher_none_sep p hp _)]
      rw [ih (fun x hx => hall x (List.mem_cons_of_mem k hx)) _ _
        (by rw [h2]; omega)]
      rw [h2]
      rfl

/-- Shifting the base offset shifts every step offset. -/
theorem stepOffsets_shift :
    ∀ (ks : List Nat) (o d : Nat),
      stepOffsets ks (o + d) = (stepOffsets ks o).map (· + d) := by
  intro ks
  induction ks with
  | nil => intro o d; rfl
  | cons k ks ih =>
    intro o d
    simp only [stepOffsets, List.map_cons]
    congr 1
    have e : o + d + (renderStep k).length + 2 =
        o + (renderStep k).length + 2 + d := by omega
    rw [e]
    exact ih (o + (renderStep k).length + 2) d

/-- Slicing a whole list. -/
theorem sliceBetween_all (s : List Char) : sliceBetween s 0 s.length = s := by
  simp [sliceBetween]

/-- Pair decomposition for a shifted start list headed by `0`. -/
theorem pairsWithNext_cons_shift (l : List Nat) (t : List Nat)
    (hl : l = 0 :: t) (d len : Nat) :
    pairsWithNext (0 :: l.map (· + d)) (len + d) =
      (0, d) :: (pairsWithNext l len).map (fun p => (p.1 + d, p.2 + d)) := by
  subst hl
  rw [List.map_cons]
  rw [show pairsWithNext (0 :: ((0 + d) :: t.map (· + d))) (len + d) =
    (0, 0 + d) :: pairsWithNext ((0 + d) :: t.map (· + d)) (len + d) from rfl]
  rw [← List.map_cons (· + d) 0 t, pairsWithNext_shift]
  simp only [Nat.zero_add]

/-- The slicing loop of `ExtractSteps` over the rendered offsets produces
one step map per step literal, in order. -/
theorem steps_pairs :
    ∀ (ks : List Nat), (∀ k ∈ ks, 1 ≤ k) →
      (pairsWithNext (stepOffsets ks 0)
          (joinChars ", ".toList (ks.map renderStep)).length).filterMap
        (fun se => processStepBlock
          (sliceBetween (joinChars ", ".toList (ks.map renderStep))
            se.1 se.2))
        = ks.map renderedStepMap := by
  intro ks
  induction ks with
  | nil => intro _; rfl
  | cons k ks ih =>
    intro hall
    cases ks with
    | nil =>
      rw [show joinChars ", ".toList (([k] : List Nat).map renderStep) =
        renderStep k from rfl]
      rw [show stepOffsets [k] 0 = [0] from rfl]
      rw [show pairsWithNext [0] (renderStep k).length =
        [(0, (renderStep k).length)] from rfl]
      have hp := processStepBlock_render k (hall k (by simp)) []
      rw [List.append_nil] at hp
      simp only [List.filterMap_cons, List.filterMap_nil, sliceBetween_all, hp]
      rfl
    | cons k2 ks2 =>
      have h2 : ((", ".toList : List Char)).length = 2 := rfl
      have hjoin : joinChars ", ".toList ((k :: k2 :: ks2).map renderStep) =
          (renderStep k ++ ", ".toList) ++
            joinChars ", ".toList ((k2 :: ks2).map renderStep) := rfl
      have hoff : stepOffsets (k :: k2 :: ks2) 0 =
          0 :: (stepOffsets (k2 :: ks2) 0).map
            (· + ((renderStep k).length + 2)) := by
        rw [show stepOffsets (k :: k2 :: ks2) 0 =
          0 :: stepOffsets (k2 :: ks2) (0 + (renderStep k).length + 2)
          from rfl]
        congr 1
        have e : 0 + (renderStep k).length + 2 =
            0 + ((renderStep k).length + 2) := by omega
        rw [e, stepOffsets_shift]
      have hL : ((renderStep k ++ ", ".toList) ++
          joinChars ", ".toList ((k2 :: ks2).map renderStep)).length =
          (joinChars ", ".toList ((k2 :: ks2).map renderStep)).length +
            ((renderStep k).length + 2) := by
        rw [List.length_append, List.length_append, h2]
        omega
      rw [hjoin, hoff, hL]
      rw [pairsWithNext_cons_shift (stepOffsets (k2 :: ks2) 0) _ rfl
        ((renderStep k).length + 2)
        (joinChars ", ".toList ((k2 :: ks2).map renderStep)).length]
      have hfirst : processStepBlock
          (sliceBetween ((renderStep k ++ ", ".toList) ++
            joinChars ", ".toList ((k2 :: ks2).map renderStep)) 0
            ((renderStep k).length + 2)) = some (renderedStepMap k) := by
        have hd : (renderStep k).length + 2 =
            (renderStep k ++ ", ".toList).length := by
          rw [List.length_append, h2]
        rw [hd, sliceBetween_left]
        exact processStepBlock_render k (hall k (by simp)) (", ".toList)
      rw [List.filterMap_cons]
      simp only [hfirst]
      rw [List.filterMap_map]
      have hfun : ((fun se : Nat × Nat => processStepBlock
            (sliceBetween ((renderStep k ++ ", ".toList) ++
              joinChars ", ".toList ((k2 :: ks2).map renderStep))
              se.1 se.2)) ∘
          (fun p : Nat × Nat => (p.1 + ((renderStep k).length + 2),
            p.2 + ((renderStep k).length + 2)))) =
          (fun p : Nat × Nat => processStepBlock
            (sliceBetween (joinChars ", ".toList ((k2 :: ks2).map renderStep))
              p.1 p.2)) := by
        funext p
        simp only [Function.comp]
        have hd : ∀ n : Nat, n + ((renderStep k).length + 2) =
            n + (renderStep k ++ ", ".toList).length := by
          intro n
          rw [List.length_append, h2]
        rw [hd p.1, hd p.2, sliceBetween_shift]
      rw [hfun, ih (fun x hx => hall x (List.mem_cons_of_mem k hx))]
      rfl

/-- The step starts of a rendered step array are the expected offsets. -/
theorem stepStarts_rendered (ks : List Nat) (h : ∀ k ∈ ks, 1 ≤ k) :
    stepStarts (joinChars ", ".toList (ks.map renderStep)) =
      stepOffsets ks 0 := by
  show (goFindAll stepMatcher
      ((joinChars ", ".toList (ks.map renderStep)).length + 1)
      (joinChars ", ".toList (ks.map renderStep)) 0).map (·.1) =
    stepOffsets ks 0
  rw [goFindAll_renderSteps ks h 0 _ (by omega)]
  rw [List.map_map]
  exact List.map_id (stepOffsets ks 0)

/-- `ExtractSteps` on a rendered step array returns the expected step maps. -/
theorem ExtractSteps_rendered_eq (ks : List Nat) (h : ∀ k ∈ ks, 1 ≤ k) :
    ExtractSteps (renderSteps ks) = ks.map renderedStepMap := by
  show (pairsWithNext
      (stepStarts (joinChars ", ".toList (ks.map renderStep)))
      (joinChars ", ".toList (ks.map renderStep)).length).filterMap
    (fun se => processStepBlock
      (sliceBetween (joinChars ", ".toList (ks.map renderStep)) se.1 se.2))
    = ks.map renderedStepMap
  rw [stepStarts_rendered ks h]
  exact steps_pairs ks h

/-- The field count of a rendered step map. -/
theorem stepFieldCount_rendered (k : Nat) :
    stepFieldCount (renderedStepMap k) = k := by
  simp [stepFieldCount, renderedStepMap, List.find?]

/-- There are as many step offsets as step literals. -/
theorem stepOffsets_length :
    ∀ (ks : List Nat) (o : Nat), (stepOffsets ks o).length = ks.length := by
  intro ks
  induction ks with
  | nil => intro o; rfl
  | cons k ks ih =>
    intro o
    simp [stepOffsets, ih]

set_option maxRecDepth 8000 in
/-- **C7** counterexample.  The claim promises one returned step record per
`new ConfigurationStep(` literal with properly nested braces.  The array
body below contains two such literals, the first with an empty options
object; `parseStep` of the empty body yields an empty map, which the
`len(step) > 0` guard of `ExtractSteps` silently drops, so only one step
record is returned. -/
theorem extract_steps_counterexample :
    countStepLiterals ("new ConfigurationStep(\x7b\x7d), new ConfigurationStep(\x7bfields: [new TextField(\x7b\x7d)]\x7d)") = 2 ∧
    (ExtractSteps ("new ConfigurationStep(\x7b\x7d), new ConfigurationStep(\x7bfields: [new TextField(\x7b\x7d)]\x7d)")).length = 1 := by
  decide

/-- **C7** (amended).  The original universal claim is refuted by
`extract_steps_counterexample`: a step literal whose parsed map is empty
(for example `new ConfigurationStep({})`) is dropped by the
`len(step) > 0` guard, so `N` literals can yield fewer than `N` records.
The amended claim is exactly this theorem: for every configuration-step
array of the canonical shape `renderSteps ks` — one
`new ConfigurationStep({fields: […]})` literal per entry of `ks`, joined
by `", "`, the `i`-th body holding `ks[i] ≥ 1` field literals
`new TextField({})` — `ExtractSteps` returns exactly one step record per
step literal (as counted by `countStepLiterals`), in source order, and
the `i`-th record's `fields` sub-array has length `ks[i]`. -/
theorem extract_steps_rendered (ks : List Nat) (h : ∀ k ∈ ks, 1 ≤ k) :
    ExtractSteps (renderSteps ks) = ks.map renderedStepMap ∧
    (ExtractSteps (renderSteps ks)).length =
      countStepLiterals (renderSteps ks) ∧
    (ExtractSteps (renderSteps ks)).map stepFieldCount = ks := by
  have he := ExtractSteps_rendered_eq ks h
  refine ⟨he, ?_, ?_⟩
  · rw [he]
    show (ks.map renderedStepMap).length =
      (stepStarts (joinChars ", ".toList (ks.map renderStep))).length
    rw [stepStarts_rendered ks h, List.length_map, stepOffsets_length]
  · rw [he, List.map_map]
    rw [show (stepFieldCount ∘ renderedStepMap) = (fun k : Nat => k) from
      funext stepFieldCount_rendered]
    exact List.map_id ks

set_option maxRecDepth 8000 in
/-- Witness for `extract_steps_rendered` at `ks = [2, 1]`. -/
theorem extract_steps_rendered_witness :
    ExtractSteps (renderSteps [2, 1]) = [2, 1].map renderedStepMap ∧
    (ExtractSteps (renderSteps [2, 1])).length =
      countStepLiterals (renderSteps [2, 1]) ∧
    (ExtractSteps (renderSteps [2, 1])).map stepFieldCount = [2, 1] :=
  extract_steps_rendered [2, 1] (by decide)
